/-
Verification of the intent-driven tool-call mediation layer (hook pipeline).

This file contains a shallow embedding of the hook system found under
`src/hooks`: the hook engine, the four pre-hooks (ContextInjector,
IntentGatekeeper, ScopeEnforcer, OptimisticLockGuard), the post-hooks
(TraceLogger, IntentMapUpdater, LessonRecorder), the intent policy store,
the structural hasher and the mutation classifier, together with theorems
about the behaviour of these components.

External collaborators (the TypeScript parser, SHA-256, js-yaml, minimatch,
the git binary, the clock and the UUID generator) are modelled as components
of an `Env` record of oracles, mirroring the spec's treatment of them as
out-of-scope collaborators accessed through fixed interfaces.  The
filesystem is modelled as an explicit `World` value threaded through the
hooks.  Node's POSIX path helpers are modelled for paths already in normal
form (no `..` segments, forward slashes), which covers every path built by
the hook system itself.
-/
import Mathlib

namespace Roo

/-! ## JavaScript-side values and tool parameters -/

/-- A dynamic JavaScript value as far as the hook system inspects it:
the hooks only ever test `typeof v === "string"` and string truthiness,
so we distinguish strings from every other value. -/
inductive JsValue where
  | vstr (s : String)
  | other
  deriving DecidableEq, Repr

/-- The `params` record of a tool call (`Record<string, unknown>`). -/
def Params := List (String × JsValue)

/-- `params[key]` — property lookup on the params object. -/
def Params.lookup (p : Params) (key : String) : Option JsValue :=
  (List.find? (fun kv => kv.fst = key) p).map (·.snd)

instance : DecidableEq Params := inferInstanceAs (DecidableEq (List (String × JsValue)))

/-- JavaScript truthiness of a string: only `""` is falsy. -/
def jsTruthyStr (s : String) : Bool := s ≠ ""

/-! ## Executable string primitives

Models of the JavaScript/Node string methods used by the sources, written
over the character list of a `String` so that every definition in this
file evaluates inside the kernel. -/

/-- `s.split(sep)` for a one-character separator (every `split` in the
sources uses `"\n"`). -/
def strSplitOnCharAux (sep : Char) : List Char → List Char → List String
  | [], acc => [String.mk acc.reverse]
  | c :: rest, acc =>
    if c = sep then String.mk acc.reverse :: strSplitOnCharAux sep rest []
    else strSplitOnCharAux sep rest (c :: acc)

/-- `s.split(sep)` (one-character separator). -/
def strSplitOnChar (s : String) (sep : Char) : List String :=
  strSplitOnCharAux sep s.data []

/-- `s.trim()`. -/
def jsTrim (s : String) : String :=
  String.mk (((s.data.dropWhile Char.isWhitespace).reverse.dropWhile
    Char.isWhitespace).reverse)

/-- `s.startsWith(p)`. -/
def strStartsWith (s p : String) : Bool := List.isPrefixOf p.data s.data

/-- `s.endsWith(p)`. -/
def strEndsWith (s p : String) : Bool := List.isSuffixOf p.data s.data

/-- `s.replace(/c/g, rep)` — global replacement of a single character. -/
def charReplace (s : String) (c : Char) (rep : String) : String :=
  String.mk (s.data.flatMap (fun ch => if ch = c then rep.data else [ch]))

/-- `s.slice(0, n)`. -/
def strTake (s : String) (n : Nat) : String := String.mk (s.data.take n)

/-- Drop the first `n` characters. -/
def strDrop (s : String) (n : Nat) : String := String.mk (s.data.drop n)

/-- `s.toLowerCase()`. -/
def strToLower (s : String) : String := String.mk (s.data.map Char.toLower)

/-- `list.join(sep)`. -/
def strIntercalate (sep : String) : List String → String
  | [] => ""
  | [x] => x
  | x :: xs => x ++ sep ++ strIntercalate sep xs

/-! ## Filesystem model -/

/-- State of one path on disk: absent (`existsSync` false), present but
unreadable (`readFileSync` throws), or present with content. -/
inductive FileState where
  | absent
  | unreadable
  | content (s : String)
  deriving DecidableEq, Repr

/-- The filesystem, mapping absolute paths to their state.  Directories are
not modelled separately: `mkdirSync` (used by the trace logger before an
append) has no observable effect in this model. -/
structure World where
  files : String → FileState

/-- `fs.writeFileSync` — create or overwrite. -/
def World.write (w : World) (p s : String) : World :=
  ⟨fun q => if q = p then .content s else w.files q⟩

/-- `fs.appendFileSync` — appends, creating the file when absent.
An unreadable path is left unchanged (the write error is swallowed by the
callers, which are all post-hooks). -/
def World.append (w : World) (p s : String) : World :=
  ⟨fun q => if q = p then
      match w.files p with
      | .content old => .content (old ++ s)
      | .absent => .content s
      | .unreadable => .unreadable
    else w.files q⟩

/-! ## Node path helpers (POSIX, normal-form inputs) -/

/-- `path.isAbsolute` for POSIX paths. -/
def isAbsolutePath (p : String) : Bool := strStartsWith p "/"

/-- `path.join(a, b)` for normal-form POSIX segments. -/
def pathJoin (a b : String) : String := a ++ "/" ++ b

/-- `path.relative(base, p)` for normalised POSIX paths located under
`base`; for a path not under `base` the original path is returned (the
hook system then simply fails its glob matches, which agrees with the
spec's description of path relativisation). -/
def pathRelative (base p : String) : String :=
  if p = base then ""
  else if strStartsWith p (base ++ "/") then (strDrop p (base.length + 1))
  else p

/-- `path.extname`: the suffix of the last path segment from its last dot,
or `""` when the segment has no dot or only a leading dot. -/
def extname (p : String) : String :=
  let b := ((strSplitOnChar p '/').getLastD "").data
  match b.reverse.findIdx? (fun c => c = '.') with
  | none => ""
  | some rIdx =>
    let idx := b.length - 1 - rIdx
    if idx = 0 then "" else String.mk (b.drop idx)

/-- The `jsx` parser option: `filePath.endsWith(".tsx") || filePath.endsWith(".jsx")`
(case-sensitive, exactly as in `hashAst` and `extractExports`). -/
def jsxFlag (filePath : String) : Bool :=
  strEndsWith filePath ".tsx" || strEndsWith filePath ".jsx"

/-! ## The ESTree fragment consumed by the hasher and the classifier

`@typescript-eslint/typescript-estree` is an external collaborator; we model
exactly the shape of the parse tree that `extractFingerprints` and
`extractExports` destructure: the top-level `body` list, with the fields
`type`, `id?.name`, `params.length`, `body.body[*].type`, declarator
`id?.name` / `init?.type`, and export specifier `exported?.name`. -/

/-- One `VariableDeclaration` declarator: `id?.name` and `init?.type`. -/
structure VarDeclarator where
  idName : Option String
  initType : Option String
  deriving DecidableEq, Repr

/-- A declaration node as destructured by the hook system.  `otherDecl`
stands for any declaration `type` the extractors do not recognise (they
fall through their `switch`/`if` chains producing nothing for it). -/
inductive DeclNode where
  | funcDecl (idName : Option String) (paramCount : Nat) (bodyTypes : List String)
  | classDecl (idName : Option String) (memberTypes : List String)
  | interfaceDecl (idName : Option String) (memberTypes : List String)
  | typeAliasDecl (idName : Option String)
  | varDecl (declarators : List VarDeclarator)
  | otherDecl (typeTag : String) (idName : Option String)
  deriving DecidableEq, Repr

/-- `node.type` of a declaration. -/
def DeclNode.typeTagOf : DeclNode → String
  | .funcDecl _ _ _ => "FunctionDeclaration"
  | .classDecl _ _ => "ClassDeclaration"
  | .interfaceDecl _ _ => "TSInterfaceDeclaration"
  | .typeAliasDecl _ => "TSTypeAliasDeclaration"
  | .varDecl _ => "VariableDeclaration"
  | .otherDecl t _ => t

/-- `node.id?.name` of a declaration (`undefined` for a
`VariableDeclaration`, which has no `id`). -/
def DeclNode.idNameOf : DeclNode → Option String
  | .funcDecl n _ _ => n
  | .classDecl n _ => n
  | .interfaceDecl n _ => n
  | .typeAliasDecl n => n
  | .varDecl _ => none
  | .otherDecl _ n => n

/-- A top-level node of `ast.body`. -/
inductive TopNode where
  | decl (d : DeclNode)
  | exportNamed (decl : Option DeclNode) (specifiers : List (Option String))
  | exportDefault (decl : Option DeclNode)
  | otherTop
  deriving DecidableEq, Repr

/-- A parsed program: the `body` list of the ESTree `Program` node. -/
structure Program where
  body : List TopNode
  deriving DecidableEq, Repr

/-! ## Structural fingerprints (utils/astHasher.ts, `extractFingerprints`) -/

/-- A fingerprint node; `Option` fields model JavaScript object fields that
may be `undefined` and are then omitted by `JSON.stringify`.  `exported`
is `none` exactly for `export-ref` nodes, whose push site has no
`exported` property. -/
structure FingerprintNode where
  type : String
  name : Option String
  paramCount : Option Nat
  exported : Option Bool
  children : List String
  deriving DecidableEq, Repr

/-- `extractFingerprints` — walk the top-level body and project each
recognised declaration to a fingerprint node. -/
def extractFingerprints (body : List TopNode) : List FingerprintNode :=
  body.flatMap fun node =>
    match node with
    | .decl (.funcDecl n pc bt) =>
      [⟨"fn", n, some pc, some false, bt⟩]
    | .decl (.classDecl n mt) =>
      [⟨"class", n, none, some false, mt⟩]
    | .decl (.interfaceDecl n mt) =>
      [⟨"interface", n, none, some false, mt⟩]
    | .decl (.typeAliasDecl n) =>
      [⟨"type-alias", n, none, some false, []⟩]
    | .decl (.varDecl ds) =>
      ds.map fun v => ⟨"var", v.idName, none, some false, [v.initType.getD "unknown"]⟩
    | .decl (.otherDecl _ _) => []
    | .exportNamed none specs =>
      specs.map fun s => ⟨"export-ref", s, none, none, []⟩
    | .exportNamed (some (.funcDecl n pc bt)) _ =>
      [⟨"fn", n, some pc, some true, bt⟩]
    | .exportNamed (some (.classDecl n mt)) _ =>
      [⟨"class", n, none, some true, mt⟩]
    | .exportNamed (some (.interfaceDecl n mt)) _ =>
      [⟨"interface", n, none, some true, mt⟩]
    | .exportNamed (some (.typeAliasDecl n)) _ =>
      [⟨"type-alias", n, none, some true, []⟩]
    | .exportNamed (some (.varDecl ds)) _ =>
      ds.map fun v => ⟨"var", v.idName, none, some true, [v.initType.getD "unknown"]⟩
    | .exportNamed (some (.otherDecl _ _)) _ => []
    | .exportDefault d =>
      [⟨"export-default", (d.bind DeclNode.idNameOf).orElse (fun _ => d.map DeclNode.typeTagOf),
        none, some true, []⟩]
    | .otherTop => []

/-- Minimal JSON string escaping (backslash, quote, newline); sufficient
for an injective serialisation of the fingerprint values arising here. -/
def jsonEsc (s : String) : String :=
  (charReplace (charReplace (charReplace s '\\' "\\\\") '\"' "\\\"") '\n' "\\n")

/-- Render a JSON string literal. -/
def jsonStr (s : String) : String := "\"" ++ jsonEsc s ++ "\""

/-- Render a JSON array of strings. -/
def jsonStrArr (l : List String) : String :=
  "[" ++ strIntercalate "," (l.map jsonStr) ++ "]"

/-- `JSON.stringify` of one fingerprint node: keys in insertion order
(`type`, `name`, `paramCount`, `exported`, `children`), `undefined`
fields omitted. -/
def FingerprintNode.toJson (n : FingerprintNode) : String :=
  "\x7b" ++ strIntercalate ","
    ([some ("\"type\":" ++ jsonStr n.type),
      n.name.map (fun s => "\"name\":" ++ jsonStr s),
      n.paramCount.map (fun k => "\"paramCount\":" ++ toString k),
      n.exported.map (fun b => "\"exported\":" ++ (if b then "true" else "false")),
      some ("\"children\":" ++ jsonStrArr n.children)].filterMap id)
  ++ "\x7d"

/-- `JSON.stringify(fingerprints, null, 0)`. -/
def serializeFingerprints (l : List FingerprintNode) : String :=
  "[" ++ strIntercalate "," (l.map FingerprintNode.toJson) ++ "]"

/-! ## Exported API surface (utils/astHasher.ts, `extractExports`) -/

/-- The `kind` of an export signature. -/
inductive ExportKind where
  | fn | cls | intf | typ | varK | refK | defaultK
  deriving DecidableEq, Repr

/-- The string form of an export kind. -/
def ExportKind.str : ExportKind → String
  | .fn => "fn"
  | .cls => "class"
  | .intf => "interface"
  | .typ => "type"
  | .varK => "var"
  | .refK => "ref"
  | .defaultK => "default"

/-- An exported symbol signature. -/
structure ExportSignature where
  kind : ExportKind
  name : String
  paramCount : Option Nat
  deriving DecidableEq, Repr

/-- The export extraction loop of `extractExports`, over a parsed body. -/
def exportsOfBody (body : List TopNode) : List ExportSignature :=
  body.flatMap fun node =>
    match node with
    | .exportNamed none specs =>
      specs.map fun s => ⟨.refK, s.getD "", none⟩
    | .exportNamed (some (.funcDecl n pc _)) _ =>
      [⟨.fn, n.getD "", some pc⟩]
    | .exportNamed (some (.classDecl n _)) _ =>
      [⟨.cls, n.getD "", none⟩]
    | .exportNamed (some (.interfaceDecl n _)) _ =>
      [⟨.intf, n.getD "", none⟩]
    | .exportNamed (some (.typeAliasDecl n)) _ =>
      [⟨.typ, n.getD "", none⟩]
    | .exportNamed (some (.varDecl ds)) _ =>
      ds.map fun v => ⟨.varK, v.idName.getD "", none⟩
    | .exportNamed (some (.otherDecl _ _)) _ => []
    | .exportDefault d =>
      [⟨.defaultK, (d.bind DeclNode.idNameOf).getD "__default__", none⟩]
    | _ => []

/-! ## Intent policy records (utils/intentStore.ts) -/

/-- A contributor record. -/
structure Contributor where
  entityType : String
  modelIdentifier : Option String
  sessionId : Option String
  lastActive : Option String
  deriving DecidableEq, Repr

/-- Intent status. -/
inductive IntentStatus where
  | PENDING | IN_PROGRESS | BLOCKED | COMPLETE
  deriving DecidableEq, Repr

/-- The string form of an intent status (as stored in the YAML file). -/
def IntentStatus.str : IntentStatus → String
  | .PENDING => "PENDING"
  | .IN_PROGRESS => "IN_PROGRESS"
  | .BLOCKED => "BLOCKED"
  | .COMPLETE => "COMPLETE"

/-- An intent record from `.orchestration/active_intents.yaml`. -/
structure ActiveIntent where
  id : String
  name : String
  status : IntentStatus
  created_at : String
  updated_at : String
  owned_scope : List String
  constraints : List String
  acceptance_criteria : List String
  depends_on : List String
  contributors : List Contributor
  blocked_reason : Option String
  deriving DecidableEq, Repr

/-- Result of `yaml.load` on the intent file's raw text: a parse exception,
a document without a usable `active_intents` key (the loader then falls back
to `[]` via `parsed?.active_intents ?? []`), or an intent list. -/
inductive YamlLoadResult where
  | parseError
  | noIntentsKey
  | intents (l : List ActiveIntent)

/-! ## The environment of external collaborators -/

/-- Oracles for every external collaborator the hook system calls out to.
Each field models one out-of-scope interface from the spec:
`sha256Hex` is `crypto.createHash("sha256")...digest("hex")`;
`parse` is the optional TypeScript parser, with `none` covering both
"parser not installed" and "parse threw" (the sources send both to the same
`catch`); `glob path pattern` is `minimatch(path, pattern, { dot: true })`
(both call sites pass the same options); `yamlLoad`/`yamlDump` are js-yaml;
`now` is `new Date().toISOString()`; `uuid` is `crypto.randomUUID()`;
`gitSha` is the git probe (`null` on any failure or timeout);
`intentMapView` is the implementation-defined content produced by the
non-core Intent-Map Updater. -/
structure Env where
  sha256Hex : String → String
  parse : String → Bool → Option Program
  glob : String → String → Bool
  yamlLoad : String → YamlLoadResult
  yamlDump : List ActiveIntent → String
  now : String
  uuid : String
  gitSha : Option String
  intentMapView : String

/-! ## Structural hasher (utils/astHasher.ts) -/

/-- Supported extensions, case-folded. -/
def TS_EXTENSIONS : List String :=
  [".ts", ".tsx", ".js", ".jsx", ".mts", ".cts", ".mjs", ".cjs"]

/-- Hashing method. -/
inductive HashMethod where
  | ast | raw
  deriving DecidableEq, Repr

/-- The fingerprint record produced by the hasher. -/
structure HashResult where
  hash : String
  method : HashMethod
  nodeCount : Nat
  deriving DecidableEq, Repr

/-- `hashRaw` — SHA-256 of the literal content. -/
def hashRaw (env : Env) (content : String) : HashResult :=
  ⟨"raw-sha256:" ++ env.sha256Hex content, .raw, 0⟩

/-- `hashAst` on a successfully parsed program. -/
def hashAstOf (env : Env) (prog : Program) : HashResult :=
  let fingerprints := extractFingerprints prog.body
  ⟨"ast-sha256:" ++ env.sha256Hex (serializeFingerprints fingerprints), .ast,
    fingerprints.length⟩

/-- `hashCodeBlock` — AST fingerprint hash for supported extensions,
raw hash otherwise or when the parser is unavailable or fails. -/
def hashCodeBlock (env : Env) (content filePath : String) : HashResult :=
  let ext := strToLower (extname filePath)
  if TS_EXTENSIONS.contains ext then
    match env.parse content (jsxFlag filePath) with
    | some prog => hashAstOf env prog
    | none => hashRaw env content
  else
    hashRaw env content

/-- `extractExports` — the exported API surface of file content; empty for
unsupported extensions and on parse failure. -/
def extractExports (env : Env) (content filePath : String) : List ExportSignature :=
  let ext := strToLower (extname filePath)
  if TS_EXTENSIONS.contains ext then
    match env.parse content (jsxFlag filePath) with
    | some prog => exportsOfBody prog.body
    | none => []
  else
    []

/-! ## Mutation classifier (utils/mutationClassifier.ts) -/

/-- Mutation class. -/
inductive MutationClass where
  | AST_REFACTOR | INTENT_EVOLUTION | UNKNOWN
  deriving DecidableEq, Repr

/-- The string form of a mutation class (as logged to the ledger). -/
def MutationClass.str : MutationClass → String
  | .AST_REFACTOR => "AST_REFACTOR"
  | .INTENT_EVOLUTION => "INTENT_EVOLUTION"
  | .UNKNOWN => "UNKNOWN"

/-- The classifier's result record. -/
structure ClassificationResult where
  mutationClass : MutationClass
  reason : String
  added : List String
  removed : List String
  changed : List String
  deriving DecidableEq, Repr

/-- `exportKey` — the map key `kind:name`. -/
def exportKey (sig : ExportSignature) : String :=
  sig.kind.str ++ ":" ++ sig.name

/-- A JavaScript `Map` built by repeated `set`: an association list where a
`set` on an existing key updates the value in place (keeping the original
insertion position), modelling JS `Map` iteration order. -/
def mapInsert (m : List (String × ExportSignature)) (k : String) (v : ExportSignature) :
    List (String × ExportSignature) :=
  if m.any (fun kv => kv.fst = k) then
    m.map (fun kv => if kv.fst = k then (k, v) else kv)
  else
    m ++ [(k, v)]

/-- `exportMap` — insert each signature under its key. -/
def exportMap (exports : List ExportSignature) : List (String × ExportSignature) :=
  exports.foldl (fun m sig => mapInsert m (exportKey sig) sig) []

/-- `map.has(k)`. -/
def mapHas (m : List (String × ExportSignature)) (k : String) : Bool :=
  m.any (fun kv => kv.fst = k)

/-- `map.get(k)`. -/
def mapGet (m : List (String × ExportSignature)) (k : String) : Option ExportSignature :=
  (m.find? (fun kv => kv.fst = k)).map (·.snd)

/-- `sigChanged` — kind differs, or for `fn` the param count differs. -/
def sigChanged (old next : ExportSignature) : Bool :=
  if old.kind ≠ next.kind then true
  else if old.kind = .fn ∧ old.paramCount ≠ next.paramCount then true
  else false

/-- `formatSig` — `fn:<name>:<paramCount>` for functions, `<kind>:<name>`
otherwise. -/
def formatSig (sig : ExportSignature) : String :=
  if sig.kind = .fn then "fn:" ++ sig.name ++ ":" ++ toString (sig.paramCount.getD 0)
  else sig.kind.str ++ ":" ++ sig.name

/-- `classifyMutation` — compare old and new exported surfaces.  The
enclosing `try`/`catch` of the source is unreachable here because the
modelled `extractExports` never throws. -/
def classifyMutation (env : Env) (oldContent newContent filePath : String) :
    ClassificationResult :=
  let oldExports := extractExports env oldContent filePath
  let newExports := extractExports env newContent filePath
  if oldExports.length = 0 ∧ newExports.length = 0 then
    ⟨.UNKNOWN, "Could not parse exports — non-TypeScript file or parse error",
      [], [], []⟩
  else
    let oldMap := exportMap oldExports
    let newMap := exportMap newExports
    let added := (newMap.filter (fun kv => ! mapHas oldMap kv.fst)).map
      (fun kv => formatSig kv.snd)
    let changed := newMap.filterMap (fun kv =>
      match mapGet oldMap kv.fst with
      | some oldSig =>
        if sigChanged oldSig kv.snd then
          some (formatSig oldSig ++ " → " ++ formatSig kv.snd)
        else none
      | none => none)
    let removed := (oldMap.filter (fun kv => ! mapHas newMap kv.fst)).map
      (fun kv => formatSig kv.snd)
    if added = [] ∧ removed = [] ∧ changed = [] then
      ⟨.AST_REFACTOR, "Exported API surface unchanged — internal refactor only",
        [], [], []⟩
    else
      let parts :=
        (if added ≠ [] then ["+" ++ toString added.length ++ " added: " ++ strIntercalate ", " added] else []) ++
        (if removed ≠ [] then ["-" ++ toString removed.length ++ " removed: " ++ strIntercalate ", " removed] else []) ++
        (if changed ≠ [] then ["~" ++ toString changed.length ++ " changed: " ++ strIntercalate ", " changed] else [])
      ⟨.INTENT_EVOLUTION, "API surface changed: " ++ strIntercalate "; " parts,
        added, removed, changed⟩

/-! ## Intent store operations (utils/intentStore.ts, via hooks/index.ts) -/

/-- `<workspace>/.orchestration/active_intents.yaml`. -/
def intentsFilePath (workspacePath : String) : String :=
  pathJoin workspacePath (pathJoin ".orchestration" "active_intents.yaml")

/-- `loadIntents` — re-reads the intent file on every call; `[]` when the
file is absent; throws (modelled as `.error`) when the file exists but
cannot be read or parsed. -/
def loadIntentsE (env : Env) (w : World) (workspacePath : String) :
    Except String (List ActiveIntent) :=
  match w.files (intentsFilePath workspacePath) with
  | .absent => .ok []
  | .unreadable => .error "[intentStore] active_intents.yaml is malformed"
  | .content raw =>
    match env.yamlLoad raw with
    | .parseError => .error "[intentStore] active_intents.yaml is malformed"
    | .noIntentsKey => .ok []
    | .intents l => .ok l

/-- `findIntent` — first intent with the given id. -/
def findIntentE (env : Env) (w : World) (workspacePath intentId : String) :
    Except String (Option ActiveIntent) :=
  (loadIntentsE env w workspacePath).map (fun intents =>
    intents.find? (fun i => i.id = intentId))

/-- The invariant four-line comment header the rewriter emits. -/
def intentsHeaderRule : String := String.mk (List.replicate 77 '─')

/-- The full header text prepended by `updateIntentStatus`. -/
def intentsHeader : String :=
  "# " ++ intentsHeaderRule ++ "\n" ++
  "# .orchestration/active_intents.yaml\n" ++
  "# " ++ intentsHeaderRule ++ "\n\n"

/-- The in-place mutation `intent.status = status; intent.updated_at = now`
performed on the first intent found by `intents.find(...)`. -/
def updateFirstIntent (intents : List ActiveIntent) (intentId : String)
    (status : IntentStatus) (now : String) : List ActiveIntent :=
  match intents with
  | [] => []
  | i :: rest =>
    if i.id = intentId then { i with status := status, updated_at := now } :: rest
    else i :: updateFirstIntent rest intentId status now

/-- `updateIntentStatus` — loads, mutates the first matching intent, and
rewrites the whole file as header + `yaml.dump`.  Throws (`.error`) before
any write when the id is missing, so the file is untouched in that case.
(The source also re-reads the raw file into an unused local variable; that
dead read is omitted.) -/
def updateIntentStatus (env : Env) (w : World) (workspacePath intentId : String)
    (status : IntentStatus) : Except String World :=
  match loadIntentsE env w workspacePath with
  | .error e => .error e
  | .ok intents =>
    match intents.find? (fun i => i.id = intentId) with
    | none =>
      .error ("[intentStore] Cannot update status: intent \"" ++ intentId ++ "\" not found")
    | some _ =>
      let intents' := updateFirstIntent intents intentId status env.now
      let newYaml := intentsHeader ++ env.yamlDump intents'
      .ok (w.write (intentsFilePath workspacePath) newYaml)

/-- `isFileInScope` — relativise to a POSIX workspace-relative path and test
membership against any `owned_scope` pattern with
`minimatch(relative, pattern, { dot: true, matchBase: false })`. -/
def isFileInScope (env : Env) (workspacePath : String) (intent : ActiveIntent)
    (absoluteFilePath : String) : Bool :=
  let relative := (pathRelative workspacePath absoluteFilePath)|> (charReplace · '\\' "/")
  intent.owned_scope.any (fun pattern => env.glob relative pattern)

/-- `loadIgnorePatterns` — split `.intentignore` into lines, trim, and drop
blanks and `#` comments; `[]` when absent; throws when unreadable. -/
def loadIgnorePatternsE (w : World) (workspacePath : String) :
    Except String (List String) :=
  match w.files (pathJoin workspacePath ".intentignore") with
  | .absent => .ok []
  | .unreadable => .error "EACCES"
  | .content raw =>
    .ok ((((strSplitOnChar raw '\n').map (fun l => jsTrim l))).filter
      (fun l => l.length > 0 ∧ ¬ strStartsWith l "#"))

/-- `isFileIgnored` — `minimatch(relative, pattern, { dot: true })` against
any ignore pattern. -/
def isFileIgnoredE (env : Env) (w : World) (workspacePath absoluteFilePath : String) :
    Except String Bool :=
  match loadIgnorePatternsE w workspacePath with
  | .error e => .error e
  | .ok patterns =>
    if patterns.length = 0 then .ok false
    else
      let relative := (pathRelative workspacePath absoluteFilePath)|> (charReplace · '\\' "/")
      .ok (patterns.any (fun pattern => env.glob relative pattern))

/-! ## Hook engine (HookEngine.ts) -/

/-- Block codes. -/
inductive BlockCode where
  | NO_INTENT_DECLARED | SCOPE_VIOLATION | STALE_FILE | UNKNOWN_INTENT
  | COMPLETE_INTENT | BLOCKED_INTENT | GENERIC_BLOCK
  deriving DecidableEq, Repr

/-- A `BlockSignal`. -/
structure BlockSignal where
  reason : String
  code : BlockCode
  deriving DecidableEq, Repr

/-- The per-call tool context.  `oldContent` models `__oldContent__`,
`injectedContext` models `__injectedContext__`, `gitSha` models
`__gitSha__`. -/
structure ToolContext where
  toolName : String
  params : Params
  workspacePath : String
  intentId : Option String
  mutationClass : Option MutationClass
  oldContent : Option String
  injectedContext : Option String
  gitSha : Option String
  deriving DecidableEq

/-- What one pre-hook invocation does: return a context, return a block
signal, or raise an unexpected error (caught by the engine). -/
inductive HookTry where
  | ok (ctx : ToolContext)
  | block (sig : BlockSignal)
  | threw
  deriving DecidableEq

/-- A pre-hook. -/
def PreHook := ToolContext → World → HookTry

/-- A post-hook: returns the updated world and whether it threw (the engine
swallows the flag; effects performed before the throw persist).  The
returned context of a real post-hook is discarded by the engine, so it is
not modelled. -/
def PostHook := ToolContext → World → World × Bool

/-- The block signal the engine substitutes for a pre-hook that threw. -/
def hookErrReason (name : String) : String :=
  "Hook \"" ++ name ++ "\" encountered an internal error."

/-- Result of the pre-chain. -/
inductive PreResult where
  | ok (ctx : ToolContext)
  | block (sig : BlockSignal)
  deriving DecidableEq

/-- `runPreHooks` — sequential, short-circuiting on a block, converting a
raised error into a `GENERIC_BLOCK` naming the hook. -/
def runPreHooks : List (String × PreHook) → ToolContext → World → PreResult
  | [], ctx, _ => .ok ctx
  | (name, fn) :: rest, ctx, w =>
    match fn ctx w with
    | .ok ctx' => runPreHooks rest ctx' w
    | .block sig => .block sig
    | .threw => .block ⟨hookErrReason name, .GENERIC_BLOCK⟩

/-- `runPostHooks` — sequential, all invoked, errors swallowed; each hook
receives the same context. -/
def runPostHooks : List (String × PostHook) → ToolContext → World → World
  | [], _, w => w
  | (_, fn) :: rest, ctx, w => runPostHooks rest ctx (fn ctx w).fst

/-! ## Tool sets and path parameter extraction -/

/-- The destructive tool set (pre/IntentGatekeeper.ts). -/
def DESTRUCTIVE_TOOLS : List String :=
  ["write_file", "write_to_file", "create_file",
   "apply_diff", "apply_patch",
   "edit", "search_and_replace", "search_replace", "edit_file",
   "insert_code_block", "replace_in_file", "delete_file",
   "execute_command", "run_terminal_command",
   "generate_image"]

/-- The read-only / meta allowlist (pre/IntentGatekeeper.ts). -/
def SAFE_TOOLS : List String :=
  ["read_file", "list_files", "list_directory", "search_files",
   "get_file_info", "codebase_search", "read_command_output",
   "select_active_intent", "attempt_completion", "ask_followup_question",
   "switch_mode", "use_mcp_tool", "access_mcp_resource",
   "run_slash_command", "skill", "update_todo_list", "new_task"]

/-- The read-only tools the Scope Enforcer never checks
(pre/ScopeEnforcer.ts). -/
def READ_ONLY_TOOLS : List String :=
  ["read_file", "list_files", "list_directory", "search_files",
   "get_file_info", "select_active_intent", "attempt_completion",
   "ask_followup_question", "switch_mode", "codebase_search",
   "read_command_output", "use_mcp_tool", "access_mcp_resource",
   "new_task", "run_slash_command", "skill", "update_todo_list"]

/-- The write tools guarded by the Optimistic Lock Guard
(pre/OptimisticLockGuard.ts).  Note: `delete_file` is absent. -/
def LOCK_WRITE_TOOLS : List String :=
  ["write_file", "write_to_file", "create_file",
   "apply_diff", "apply_patch",
   "edit", "search_and_replace", "search_replace", "edit_file",
   "insert_code_block", "replace_in_file"]

/-- The write tools traced by the Trace Logger (post/TraceLogger.ts). -/
def TRACED_TOOLS : List String :=
  ["write_file", "write_to_file", "create_file",
   "apply_diff", "apply_patch",
   "edit", "search_and_replace", "search_replace", "edit_file",
   "insert_code_block", "replace_in_file", "delete_file"]

/-- Path parameter names, tried in order. -/
def PATH_PARAMS : List String := ["path", "file_path", "target_file", "destination"]

/-- `extractTargetPath` — the first path parameter holding a non-empty
string. -/
def extractTargetPath (ctx : ToolContext) : Option String :=
  (PATH_PARAMS.filterMap (fun param =>
    match ctx.params.lookup param with
    | some (.vstr v) => if v.length > 0 then some v else none
    | _ => none)).head?

/-- Resolve a target path against the workspace root. -/
def resolveTarget (workspacePath targetPath : String) : String :=
  if isAbsolutePath targetPath then targetPath else pathJoin workspacePath targetPath

/-- JS truthiness of `ctx.intentId` (`if (!ctx.intentId) ...`):
`undefined` and `""` are falsy. -/
def ToolContext.hasIntent (ctx : ToolContext) : Bool :=
  match ctx.intentId with
  | some s => jsTruthyStr s
  | none => false

/-! ## Pre-hook: Intent Gatekeeper (pre/IntentGatekeeper.ts) -/

/-- The `NO_INTENT_DECLARED` remediation text. -/
def noIntentReason (toolName : String) : String :=
  "BLOCKED [NO_INTENT_DECLARED]: You attempted to call \"" ++ toolName ++
  "\" without first declaring an active intent.\n\n" ++
  "You MUST call select_active_intent(intent_id) as your FIRST action this turn.\n" ++
  "Valid intent IDs are listed in .orchestration/active_intents.yaml.\n\n" ++
  "Example: select_active_intent(\x7b \"intent_id\": \"INT-001\" \x7d)"

/-- `intentGatekeeper` — safe tools and unknown tools pass; destructive
tools without a declared intent are blocked. -/
def intentGatekeeper (ctx : ToolContext) : HookTry :=
  if SAFE_TOOLS.contains ctx.toolName then .ok ctx
  else if ¬ DESTRUCTIVE_TOOLS.contains ctx.toolName then .ok ctx
  else if ¬ ctx.hasIntent then
    .block ⟨noIntentReason ctx.toolName, .NO_INTENT_DECLARED⟩
  else .ok ctx

/-! ## Pre-hook: Context Injector (pre/ContextInjector.ts) -/

/-- `escapeXml`. -/
def escapeXml (s : String) : String :=
  charReplace (charReplace (charReplace (charReplace (charReplace s
    '&' "&amp;") '<' "&lt;") '>' "&gt;") '\"' "&quot;") '\x27' "&apos;"

/-- `buildIntentContextXml` — the injected `<intent_context>` document. -/
def buildIntentContextXml (intent : ActiveIntent) : String :=
  let scopeList := strIntercalate "\n"
    (intent.owned_scope.map (fun s => "    <path>" ++ escapeXml s ++ "</path>"))
  let constraintList := strIntercalate "\n"
    (intent.constraints.map (fun c => "    <rule>" ++ escapeXml c ++ "</rule>"))
  let criteriaList := strIntercalate "\n"
    (intent.acceptance_criteria.map (fun c => "    <criterion>" ++ escapeXml c ++ "</criterion>"))
  "<intent_context>\n" ++
  "  <id>" ++ escapeXml intent.id ++ "</id>\n" ++
  "  <name>" ++ escapeXml intent.name ++ "</name>\n" ++
  "  <status>" ++ escapeXml intent.status.str ++ "</status>\n" ++
  "  <owned_scope>\n" ++ scopeList ++ "\n  </owned_scope>\n" ++
  "  <constraints>\n" ++ constraintList ++ "\n  </constraints>\n" ++
  "  <acceptance_criteria>\n" ++ criteriaList ++ "\n  </acceptance_criteria>\n" ++
  "  <instructions>\n" ++
  "    You are now operating under intent " ++ escapeXml intent.id ++ ".\n" ++
  "    You MAY ONLY modify files within the paths listed in owned_scope.\n" ++
  "    You MUST respect ALL constraints listed above.\n" ++
  "    Before completing, verify each acceptance criterion is satisfied.\n" ++
  "    Every write_to_file / apply_diff / edit_file call MUST target a path in owned_scope.\n" ++
  "  </instructions>\n" ++
  "</intent_context>"

/-- The `UNKNOWN_INTENT` reason listing available intents. -/
def unknownIntentReason (intentId : String) (intents : List ActiveIntent) : String :=
  let available := strIntercalate "\n" (intents.map (fun i =>
    "• " ++ i.id ++ ": " ++ i.name ++ " [" ++ i.status.str ++ "]"))
  "BLOCKED [UNKNOWN_INTENT]: No active intent found with id \"" ++ intentId ++
  "\".\n\nAvailable intents:\n" ++
  (if jsTruthyStr available then available
   else "  (none — create .orchestration/active_intents.yaml first)")

/-- `contextInjector` — intercepts `select_active_intent`; validates the id,
blocks unknown / COMPLETE / BLOCKED intents, otherwise enriches the context
with the intent id and the injected XML.  The source performs two reads of
the intent file (`findIntent`, then `loadIntents` in the unknown-intent
branch); both read the same unmodified world, so a single load is
equivalent. -/
def contextInjector (env : Env) (ctx : ToolContext) (w : World) : HookTry :=
  if ctx.toolName ≠ "select_active_intent" then .ok ctx
  else
    match ctx.params.lookup "intent_id" with
    | some (.vstr intentId) =>
      if ¬ jsTruthyStr intentId then
        .block ⟨"select_active_intent requires an intent_id string parameter.\n" ++
          "Example: select_active_intent(\x7b \"intent_id\": \"INT-001\" \x7d)",
          .GENERIC_BLOCK⟩
      else
        match loadIntentsE env w ctx.workspacePath with
        | .error _ => .threw
        | .ok intents =>
          match intents.find? (fun i => i.id = intentId) with
          | none => .block ⟨unknownIntentReason intentId intents, .UNKNOWN_INTENT⟩
          | some intent =>
            if intent.status = .COMPLETE then
              .block ⟨"BLOCKED [COMPLETE_INTENT]: Intent \"" ++ intentId ++ "\" (" ++
                intent.name ++ ") is already COMPLETE.\n" ++
                "Create a new intent or ask a human to reopen this one before proceeding.",
                .COMPLETE_INTENT⟩
            else if intent.status = .BLOCKED then
              .block ⟨"BLOCKED [BLOCKED_INTENT]: Intent \"" ++ intentId ++ "\" (" ++
                intent.name ++ ") is currently BLOCKED.\n" ++
                "Reason: " ++ (intent.blocked_reason.getD "A dependency must be resolved first.") ++
                "\nResolve the blocking dependency before proceeding.",
                .BLOCKED_INTENT⟩
            else
              .ok { ctx with intentId := some intentId,
                             injectedContext := some (buildIntentContextXml intent) }
    | _ =>
      .block ⟨"select_active_intent requires an intent_id string parameter.\n" ++
        "Example: select_active_intent(\x7b \"intent_id\": \"INT-001\" \x7d)",
        .GENERIC_BLOCK⟩

/-! ## Pre-hook: Scope Enforcer (pre/ScopeEnforcer.ts) -/

/-- The `SCOPE_VIOLATION` reason. -/
def scopeViolationReason (intentId : String) (intent : ActiveIntent)
    (relativePath : String) : String :=
  let scopeList := strIntercalate "\n"
    (intent.owned_scope.map (fun s => "  • " ++ s))
  "BLOCKED [SCOPE_VIOLATION]: \"" ++ relativePath ++
  "\" is outside the scope of intent " ++ intentId ++ " (" ++ intent.name ++ ").\n\n" ++
  "Authorized scope for " ++ intentId ++ ":\n" ++ scopeList ++ "\n\n" ++
  "To write this file, either:\n" ++
  "  1. Switch to an intent that owns \"" ++ relativePath ++ "\" via select_active_intent()\n" ++
  "  2. Ask a human to add \"" ++ relativePath ++ "\" to " ++ intentId ++
  "\x27s owned_scope in active_intents.yaml\n" ++
  "  3. Add the file to .intentignore if it is a shared config file"

/-- `scopeEnforcer` — blocks writes outside the active intent's
`owned_scope`; `.intentignore` matches and read-only tools are exempt. -/
def scopeEnforcer (env : Env) (ctx : ToolContext) (w : World) : HookTry :=
  if READ_ONLY_TOOLS.contains ctx.toolName then .ok ctx
  else if ¬ ctx.hasIntent then .ok ctx
  else
    match extractTargetPath ctx with
    | none => .ok ctx
    | some targetPath =>
      let absolutePath := resolveTarget ctx.workspacePath targetPath
      match isFileIgnoredE env w ctx.workspacePath absolutePath with
      | .error _ => .threw
      | .ok true => .ok ctx
      | .ok false =>
        let intentId := (ctx.intentId.getD "")
        match findIntentE env w ctx.workspacePath intentId with
        | .error _ => .threw
        | .ok none => .ok ctx
        | .ok (some intent) =>
          if ¬ isFileInScope env ctx.workspacePath intent absolutePath then
            let relativePath :=
              (pathRelative ctx.workspacePath absolutePath)|> (charReplace · '\\' "/")
            .block ⟨scopeViolationReason intentId intent relativePath, .SCOPE_VIOLATION⟩
          else .ok ctx

/-! ## Pre-hook: Optimistic Lock Guard (pre/OptimisticLockGuard.ts) -/

/-- The `STALE_FILE` reason carrying both hashes. -/
def staleFileReason (relativePath readHash currentHash : String) : String :=
  "BLOCKED [STALE_FILE]: \"" ++ relativePath ++
  "\" was modified after you last read it.\n\n" ++
  "Your read_hash: " ++ readHash ++ "\n" ++
  "Current hash:   " ++ currentHash ++ "\n\n" ++
  "Another agent or human edited this file. You must:\n" ++
  "  1. Re-read the file with read_file(\"" ++ relativePath ++ "\")\n" ++
  "  2. Incorporate any changes from the current version\n" ++
  "  3. Retry your write with the new read_hash: \"" ++ currentHash ++ "\""

/-- `optimisticLockGuard` — captures the pre-write snapshot and validates a
declared `read_hash`.  Faithful JS detail: the guard tests
`readHash && typeof readHash === "string"`, so an empty-string or
non-string `read_hash` skips validation. -/
def optimisticLockGuard (env : Env) (ctx : ToolContext) (w : World) : HookTry :=
  if ¬ LOCK_WRITE_TOOLS.contains ctx.toolName then .ok ctx
  else
    match extractTargetPath ctx with
    | none => .ok ctx
    | some targetPath =>
      let absolutePath := resolveTarget ctx.workspacePath targetPath
      match w.files absolutePath with
      | .absent => .ok ctx
      | .unreadable => .ok ctx
      | .content currentContent =>
        let currentHash := "raw-sha256:" ++ env.sha256Hex currentContent
        let enriched := { ctx with oldContent := some currentContent }
        match ctx.params.lookup "read_hash" with
        | some (.vstr readHash) =>
          if jsTruthyStr readHash then
            if readHash ≠ currentHash then
              let relativePath :=
                (pathRelative ctx.workspacePath absolutePath)|> (charReplace · '\\' "/")
              .block ⟨staleFileReason relativePath readHash currentHash, .STALE_FILE⟩
            else .ok enriched
          else .ok enriched
        | _ => .ok enriched

/-! ## Post-hook: Trace Logger (post/TraceLogger.ts) -/

/-- Render a nullable JSON string. -/
def jsonNullableStr : Option String → String
  | some s => jsonStr s
  | none => "null"

/-- The string form of a hash method. -/
def HashMethod.str : HashMethod → String
  | .ast => "ast"
  | .raw => "raw"

/-- `JSON.stringify` of one trace entry, keys in construction order. -/
def buildTraceLine (env : Env) (ctx : ToolContext) (absolutePath newContent : String)
    (hashResult : HashResult) (mutationClass classificationReason : String) : String :=
  let relativePath := (pathRelative ctx.workspacePath absolutePath)|> (charReplace · '\\' "/")
  let revision := match ctx.gitSha with
    | some s => some s
    | none => env.gitSha
  let related :=
    if ctx.hasIntent then
      "[\x7b\"type\":\"intent\",\"value\":" ++ jsonStr (ctx.intentId.getD "") ++ "\x7d]"
    else "[]"
  "\x7b\"id\":" ++ jsonStr env.uuid ++
  ",\"timestamp\":" ++ jsonStr env.now ++
  ",\"vcs\":\x7b\"revision_id\":" ++ jsonNullableStr revision ++ "\x7d" ++
  ",\"mutation_class\":" ++ jsonStr mutationClass ++
  ",\"classification_reason\":" ++ jsonStr classificationReason ++
  ",\"files\":[\x7b\"relative_path\":" ++ jsonStr relativePath ++
  ",\"conversations\":[\x7b\"session_id\":\"unknown\"" ++
  ",\"contributor\":\x7b\"entity_type\":\"AI\",\"model_identifier\":\"unknown\"\x7d" ++
  ",\"ranges\":[\x7b\"start_line\":1" ++
  ",\"end_line\":" ++ toString (strSplitOnChar newContent '\n').length ++
  ",\"content_hash\":" ++ jsonStr hashResult.hash ++
  ",\"hash_method\":" ++ jsonStr hashResult.method.str ++
  ",\"ast_node_count\":" ++ toString hashResult.nodeCount ++ "\x7d]" ++
  ",\"related\":" ++ related ++ "\x7d]\x7d]\x7d"

/-- `traceLogger` — appends one JSONL entry for every traced write.  The
post-write content is read back from disk (empty when the file is gone);
the mutation class is computed by the classifier when the Lock Guard
captured a snapshot, else falls back to `ctx.mutationClass ?? "UNKNOWN"`.
`mkdirSync` has no observable effect in this model. -/
def traceLogger (env : Env) (ctx : ToolContext) (w : World) : World × Bool :=
  if ¬ TRACED_TOOLS.contains ctx.toolName then (w, false)
  else
    match extractTargetPath ctx with
    | none => (w, false)
    | some targetPath =>
      let absolutePath := resolveTarget ctx.workspacePath targetPath
      let newContent := match w.files absolutePath with
        | .content s => s
        | _ => ""
      let hashResult := hashCodeBlock env newContent absolutePath
      let (mutationClass, classificationReason) :=
        match ctx.oldContent with
        | some oldContent =>
          let classification := classifyMutation env oldContent newContent absolutePath
          (classification.mutationClass.str, classification.reason)
        | none =>
          ((ctx.mutationClass.map MutationClass.str).getD "UNKNOWN",
           "Classification skipped — no old content captured")
      let entry := buildTraceLine env ctx absolutePath newContent hashResult
        mutationClass classificationReason
      let tracePath := pathJoin ctx.workspacePath ".orchestration/agent_trace.jsonl"
      (w.append tracePath (entry ++ "\n"), false)

/-! ## Post-hook: Intent-Map Updater -/

/-- Modelled from the spec: the Intent-Map Updater post-hook
(`post/IntentMapUpdater.ts` is not present under `src/`): a best-effort,
implementation-defined human-readable view of intent state, written to
`<workspace>/intent_map.md` (per the registration comment in
`hooks/index.ts`); errors swallowed.  Its content is the opaque oracle
`env.intentMapView`. -/
def intentMapUpdater (env : Env) (ctx : ToolContext) (w : World) : World × Bool :=
  (w.write (pathJoin ctx.workspacePath "intent_map.md") env.intentMapView, false)

/-! ## Post-hook: Lesson Recorder (post/LessonRecorder.ts) -/

/-- `buildLesson` — the timestamped Markdown section. -/
def buildLesson (env : Env) (ctx : ToolContext) (relativePath : String) : String :=
  let timestamp := strTake env.now 16 ++ " UTC"
  strIntercalate "\n"
    ["### [" ++ timestamp ++ "] INTENT_EVOLUTION — " ++ ctx.intentId.getD "",
     "",
     "**File:** `" ++ relativePath ++ "`",
     "**Tool:** `" ++ ctx.toolName ++ "`",
     "**Mutation:** API surface changed (exported symbols added, removed, or modified)",
     "",
     "> Review the exported interface changes in `" ++ relativePath ++ "` before proceeding.",
     "> Downstream consumers may need to be updated.",
     "",
     "---",
     ""]

/-- The header seeded into a fresh CLAUDE.md. -/
def claudeMdHeader : String :=
  strIntercalate "\n"
    ["# CLAUDE.md — Shared Agent Brain",
     "",
     "> Auto-maintained by the LessonRecorder post-hook.",
     "> Read this file at the start of every session to understand what has changed.",
     "",
     "## Lessons Learned",
     ""]

/-- `appendToCLAUDEMd` — seed the header when the file is absent, then
append the lesson. -/
def appendToCLAUDEMd (workspacePath : String) (lesson : String) (w : World) : World :=
  let claudePath := pathJoin workspacePath "CLAUDE.md"
  let w1 := match w.files claudePath with
    | .absent => w.write claudePath claudeMdHeader
    | _ => w
  w1.append claudePath lesson

/-- `lessonRecorder` — appends a lesson to CLAUDE.md, but only when
`ctx.mutationClass` is `INTENT_EVOLUTION` and an intent id is present. -/
def lessonRecorder (env : Env) (ctx : ToolContext) (w : World) : World × Bool :=
  if ctx.mutationClass ≠ some .INTENT_EVOLUTION then (w, false)
  else if ¬ ctx.hasIntent then (w, false)
  else
    match extractTargetPath ctx with
    | none => (w, false)
    | some targetPath =>
      let absolutePath := resolveTarget ctx.workspacePath targetPath
      let relativePath := (pathRelative ctx.workspacePath absolutePath)|> (charReplace · '\\' "/")
      (appendToCLAUDEMd ctx.workspacePath (buildLesson env ctx relativePath) w, false)

/-! ## Registration and dispatch façade (hooks/index.ts) -/

/-- The pre-hooks in registration order. -/
def standardPreHooks (env : Env) : List (String × PreHook) :=
  [("ContextInjector", fun ctx w => contextInjector env ctx w),
   ("IntentGatekeeper", fun ctx _ => intentGatekeeper ctx),
   ("ScopeEnforcer", fun ctx w => scopeEnforcer env ctx w),
   ("OptimisticLockGuard", fun ctx w => optimisticLockGuard env ctx w)]

/-- The post-hooks in registration order. -/
def standardPostHooks (env : Env) : List (String × PostHook) :=
  [("TraceLogger", fun ctx w => traceLogger env ctx w),
   ("IntentMapUpdater", fun ctx w => intentMapUpdater env ctx w),
   ("LessonRecorder", fun ctx w => lessonRecorder env ctx w)]

/-- The `content` value returned to the agent: a block error payload, the
injected tool-result payload, or the original tool's own result. -/
inductive Content where
  | errorC (error : String) (code : BlockCode)
  | toolResultC (content : String)
  | rawC (v : String)
  deriving DecidableEq, Repr

/-- The result record of `dispatchWithHooks`. -/
structure DispatchResult where
  content : Content
  blocked : Bool
  blockReason : Option String
  deriving DecidableEq, Repr

/-- The initial per-call context built by the façade. -/
def mkToolContext (toolName : String) (params : Params)
    (workspacePath : String) (sessionIntentId : Option String) : ToolContext :=
  ⟨toolName, params, workspacePath, sessionIntentId, none, none, none, none⟩

/-- `dispatchWithHooks` — run pre-hooks; on a block return the error
payload without running the tool or the post-hooks; on an injected context
(tested for JS truthiness, as in the source) return it without running the
tool but after running post-hooks; otherwise run the tool with the possibly
rewritten name and params, then run post-hooks.  `originalDispatch` is the
host's tool dispatcher, modelled as a world transformer returning the tool
result. -/
def dispatchWithHooks
    (preHooks : List (String × PreHook)) (postHooks : List (String × PostHook))
    (toolName : String) (params : Params) (workspacePath : String)
    (originalDispatch : String → Params → World → String × World)
    (sessionIntentId : Option String) (w : World) : DispatchResult × World :=
  let ctx := mkToolContext toolName params workspacePath sessionIntentId
  match runPreHooks preHooks ctx w with
  | .block sig => (⟨.errorC sig.reason sig.code, true, some sig.reason⟩, w)
  | .ok ctx' =>
    match ctx'.injectedContext with
    | some xml =>
      if jsTruthyStr xml then
        (⟨.toolResultC xml, false, none⟩, runPostHooks postHooks ctx' w)
      else
        let (toolResult, w') := originalDispatch ctx'.toolName ctx'.params w
        (⟨.rawC toolResult, false, none⟩, runPostHooks postHooks ctx' w')
    | none =>
      let (toolResult, w') := originalDispatch ctx'.toolName ctx'.params w
      (⟨.rawC toolResult, false, none⟩, runPostHooks postHooks ctx' w')

/-! ## Concrete test fixtures -/

/-- A trivial oracle environment for concrete instantiations. -/
def trivEnv : Env :=
  { sha256Hex := fun s => s
    parse := fun _ _ => none
    glob := fun _ _ => false
    yamlLoad := fun _ => .parseError
    yamlDump := fun _ => ""
    now := "2026-01-01T00:00:00.000Z"
    uuid := "00000000-0000-4000-8000-000000000000"
    gitSha := none
    intentMapView := "" }

/-- An empty filesystem. -/
def trivWorld : World := ⟨fun _ => .absent⟩

/-! ## Engine decomposition lemmas -/

/-- Splitting a pre-chain at an append boundary. -/
theorem runPreHooks_append (A B : List (String × PreHook)) (ctx : ToolContext) (w : World) :
    runPreHooks (A ++ B) ctx w =
      match runPreHooks A ctx w with
      | .ok ctx' => runPreHooks B ctx' w
      | .block sig => .block sig := by
  induction A generalizing ctx with
  | nil => simp [runPreHooks]
  | cons hd tl ih =>
    obtain ⟨name, fn⟩ := hd
    simp only [List.cons_append, runPreHooks]
    cases fn ctx w with
    | ok ctx' => exact ih ctx'
    | block sig => rfl
    | threw => rfl

/-- Splitting a post-chain at an append boundary. -/
theorem runPostHooks_append (A B : List (String × PostHook)) (ctx : ToolContext) (w : World) :
    runPostHooks (A ++ B) ctx w = runPostHooks B ctx (runPostHooks A ctx w) := by
  induction A generalizing w with
  | nil => simp [runPostHooks]
  | cons hd tl ih =>
    obtain ⟨name, fn⟩ := hd
    simp only [List.cons_append, runPostHooks]
    exact ih (fn ctx w).fst

/-- `List.contains` to membership for strings. -/
theorem mem_of_containsStr {l : List String} {a : String} (h : l.contains a = true) :
    a ∈ l := by
  simpa using h

/-- `List.contains = false` to non-membership for strings. -/
theorem not_mem_of_containsStr_false {l : List String} {a : String}
    (h : l.contains a = false) : a ∉ l := fun hm => by
  have ht : l.contains a = true := by simpa using hm
  exact absurd (ht.symm.trans h) (by decide)

/-! ## C1 — Intent Gatekeeper authorization completeness -/

/-- C1: for every tool in the destructive set, running the pre-hook chain
on a context with no `intent_id` returns a block signal with code
`NO_INTENT_DECLARED` (so the tool is not executed); tools on the
read-only/meta allowlist, and tools in neither set, pass through the
gatekeeper unchanged. -/
theorem C1_gatekeeper_no_intent_blocks (env : Env) (w : World) (ctx : ToolContext) :
    (DESTRUCTIVE_TOOLS.contains ctx.toolName = true → ctx.intentId = none →
      runPreHooks (standardPreHooks env) ctx w =
        .block ⟨noIntentReason ctx.toolName, .NO_INTENT_DECLARED⟩)
    ∧ (SAFE_TOOLS.contains ctx.toolName = true → intentGatekeeper ctx = .ok ctx)
    ∧ (SAFE_TOOLS.contains ctx.toolName = false →
       DESTRUCTIVE_TOOLS.contains ctx.toolName = false →
       intentGatekeeper ctx = .ok ctx) := by
  refine ⟨fun hd hi => ?_, fun hs => ?_, fun hs hd => ?_⟩
  · have hmem : ctx.toolName ∈ DESTRUCTIVE_TOOLS := mem_of_containsStr hd
    have hne : ctx.toolName ≠ "select_active_intent" := by
      intro heq
      rw [heq] at hd
      exact absurd hd (by decide)
    have hnotsafe : ctx.toolName ∉ SAFE_TOOLS := by
      have hall : ∀ x ∈ DESTRUCTIVE_TOOLS, x ∉ SAFE_TOOLS := by decide
      exact hall _ hmem
    simp [standardPreHooks, runPreHooks, contextInjector, hne, intentGatekeeper,
      hnotsafe, hmem, ToolContext.hasIntent, hi]
  · simp [intentGatekeeper, mem_of_containsStr hs]
  · simp [intentGatekeeper, not_mem_of_containsStr_false hs,
      not_mem_of_containsStr_false hd]

/-- Witness for C1 at concrete inputs: `write_to_file` with no intent is
blocked with `NO_INTENT_DECLARED`; `read_file` and an unknown tool pass the
gatekeeper unchanged. -/
theorem C1_gatekeeper_no_intent_blocks_witness :
    runPreHooks (standardPreHooks trivEnv) (mkToolContext "write_to_file" [] "/ws" none) trivWorld
      = .block ⟨noIntentReason "write_to_file", .NO_INTENT_DECLARED⟩
    ∧ intentGatekeeper (mkToolContext "read_file" [] "/ws" none)
      = .ok (mkToolContext "read_file" [] "/ws" none)
    ∧ intentGatekeeper (mkToolContext "frobnicate" [] "/ws" none)
      = .ok (mkToolContext "frobnicate" [] "/ws" none) :=
  ⟨(C1_gatekeeper_no_intent_blocks trivEnv trivWorld _).1 (by decide) rfl,
   (C1_gatekeeper_no_intent_blocks trivEnv trivWorld _).2.1 (by decide),
   (C1_gatekeeper_no_intent_blocks trivEnv trivWorld _).2.2 (by decide) (by decide)⟩

/-! ## C2 — Scope Enforcer soundness -/

/-- C2: for every write-set tool call with an intent id set, when the
intent exists and a target path is extractable: a target matching neither
an `owned_scope` pattern nor an `.intentignore` pattern is blocked with
`SCOPE_VIOLATION` and a reason listing the authorized scope patterns; a
target matching an ignore pattern, or an `owned_scope` pattern, passes
through unchanged. -/
theorem C2_scope_enforcer (env : Env) (w : World) (ctx : ToolContext)
    (intentId targetPath : String) (intent : ActiveIntent)
    (htool : TRACED_TOOLS.contains ctx.toolName = true)
    (hintent : ctx.intentId = some intentId) (hne : intentId ≠ "")
    (hpath : extractTargetPath ctx = some targetPath) :
    (isFileIgnoredE env w ctx.workspacePath (resolveTarget ctx.workspacePath targetPath)
        = .ok false →
     findIntentE env w ctx.workspacePath intentId = .ok (some intent) →
     isFileInScope env ctx.workspacePath intent
        (resolveTarget ctx.workspacePath targetPath) = false →
     scopeEnforcer env ctx w = .block
       ⟨scopeViolationReason intentId intent
          ((pathRelative ctx.workspacePath
            (resolveTarget ctx.workspacePath targetPath))|> (charReplace · '\\' "/")),
        .SCOPE_VIOLATION⟩)
    ∧ (isFileIgnoredE env w ctx.workspacePath (resolveTarget ctx.workspacePath targetPath)
        = .ok true →
       scopeEnforcer env ctx w = .ok ctx)
    ∧ (isFileIgnoredE env w ctx.workspacePath (resolveTarget ctx.workspacePath targetPath)
        = .ok false →
       findIntentE env w ctx.workspacePath intentId = .ok (some intent) →
       isFileInScope env ctx.workspacePath intent
          (resolveTarget ctx.workspacePath targetPath) = true →
       scopeEnforcer env ctx w = .ok ctx) := by
  have hro : ctx.toolName ∉ READ_ONLY_TOOLS := by
    have hall : ∀ x ∈ TRACED_TOOLS, x ∉ READ_ONLY_TOOLS := by decide
    exact hall _ (mem_of_containsStr htool)
  have hhas : ctx.hasIntent = true := by
    simp [ToolContext.hasIntent, hintent, jsTruthyStr, hne]
  have hgetD : ctx.intentId.getD "" = intentId := by simp [hintent]
  refine ⟨fun hig hfind hscope => ?_, fun hig => ?_, fun hig hfind hscope => ?_⟩
  · simp [scopeEnforcer, hro, hhas, hpath, hig, hgetD, hfind, hscope]
  · simp [scopeEnforcer, hro, hhas, hpath, hig]
  · simp [scopeEnforcer, hro, hhas, hpath, hig, hgetD, hfind, hscope]

/-- The intent used by the concrete C2/C3 scenarios. -/
def intentApi : ActiveIntent :=
  ⟨"INT-001", "API layer", .IN_PROGRESS, "2026-01-01T00:00:00.000Z",
   "2026-01-01T00:00:00.000Z", ["src/api/**"], ["no breaking changes"],
   ["all tests pass"], [], [], none⟩

/-- Oracle environment for the C2/C3 scenarios: the YAML document `"Y"`
parses to `[intentApi]`, and the glob oracle implements the two patterns
used (`src/api/**` and the ignore pattern `vendor/**`) on the paths
involved. -/
def scenarioEnv : Env :=
  { trivEnv with
    yamlLoad := fun s => if s = "Y" then .intents [intentApi] else .parseError
    glob := fun rel pattern =>
      (pattern = "src/api/**" && strStartsWith rel "src/api/") ||
      (pattern = "vendor/**" && strStartsWith rel "vendor/") }

/-- Filesystem for the C2 scenario: an intent file and an ignore file. -/
def scenarioWorld : World :=
  ⟨fun p =>
    if p = "/ws/.orchestration/active_intents.yaml" then .content "Y"
    else if p = "/ws/.intentignore" then .content "vendor/**\n# comment\n"
    else .absent⟩

/-- Witness for C2: under intent `INT-001` (scope `src/api/**`), a write to
`src/ui/b.tsx` is blocked with `SCOPE_VIOLATION`; a write to the ignored
`vendor/x.js` passes; a write to `src/api/a.ts` passes. -/
theorem C2_scope_enforcer_witness :
    scopeEnforcer scenarioEnv
      (mkToolContext "write_to_file" [("path", .vstr "src/ui/b.tsx")] "/ws" (some "INT-001"))
      scenarioWorld
      = .block ⟨scopeViolationReason "INT-001" intentApi "src/ui/b.tsx", .SCOPE_VIOLATION⟩
    ∧ scopeEnforcer scenarioEnv
      (mkToolContext "write_to_file" [("path", .vstr "vendor/x.js")] "/ws" (some "INT-001"))
      scenarioWorld
      = .ok (mkToolContext "write_to_file" [("path", .vstr "vendor/x.js")] "/ws" (some "INT-001"))
    ∧ scopeEnforcer scenarioEnv
      (mkToolContext "write_to_file" [("path", .vstr "src/api/a.ts")] "/ws" (some "INT-001"))
      scenarioWorld
      = .ok (mkToolContext "write_to_file" [("path", .vstr "src/api/a.ts")] "/ws" (some "INT-001")) := by
  refine ⟨?_, ?_, ?_⟩
  · have h := (C2_scope_enforcer scenarioEnv scenarioWorld
      (mkToolContext "write_to_file" [("path", .vstr "src/ui/b.tsx")] "/ws" (some "INT-001"))
      "INT-001" "src/ui/b.tsx" intentApi (by decide) rfl (by decide) rfl).1
      rfl rfl rfl
    exact h.trans (by rfl)
  · exact (C2_scope_enforcer scenarioEnv scenarioWorld
      (mkToolContext "write_to_file" [("path", .vstr "vendor/x.js")] "/ws" (some "INT-001"))
      "INT-001" "vendor/x.js" intentApi (by decide) rfl (by decide) rfl).2.1
      rfl
  · exact (C2_scope_enforcer scenarioEnv scenarioWorld
      (mkToolContext "write_to_file" [("path", .vstr "src/api/a.ts")] "/ws" (some "INT-001"))
      "INT-001" "src/api/a.ts" intentApi (by decide) rfl (by decide) rfl).2.2
      rfl rfl rfl

/-! ## C3 — Handshake purity -/

/-- A string with a non-empty suffix is non-empty. -/
theorem append_ne_empty_right (a : String) {b : String} (hb : b.length ≠ 0) :
    a ++ b ≠ "" := by
  intro h
  have hlen := congrArg String.length h
  rw [String.length_append] at hlen
  have h0 : ("" : String).length = 0 := rfl
  rw [h0] at hlen
  omega

/-- The injected XML document is never the empty string (so the dispatcher's
JS truthiness test on `__injectedContext__` fires). -/
theorem buildIntentContextXml_ne_empty (intent : ActiveIntent) :
    jsTruthyStr (buildIntentContextXml intent) = true := by
  simp only [jsTruthyStr, decide_eq_true_eq]
  exact append_ne_empty_right _ (by decide)

/-- C3: for every `select_active_intent` call whose `intent_id` names an
existing intent with status neither COMPLETE nor BLOCKED, the pre-hook
chain returns a context with the intent id set and the injected
`<intent_context>` document, and `dispatchWithHooks` returns that injected
document as the tool result after running the post-hooks on the enriched
context — for every host dispatcher `d`, which is never invoked (the
result does not depend on `d`). -/
theorem C3_handshake_purity (env : Env) (w : World) (params : Params)
    (ws : String) (sid : Option String) (intentId : String)
    (intents : List ActiveIntent) (intent : ActiveIntent)
    (postHooks : List (String × PostHook))
    (d : String → Params → World → String × World)
    (hlookup : params.lookup "intent_id" = some (.vstr intentId))
    (hne : intentId ≠ "")
    (hload : loadIntentsE env w ws = .ok intents)
    (hfind : intents.find? (fun i => i.id = intentId) = some intent)
    (hnc : intent.status ≠ .COMPLETE) (hnb : intent.status ≠ .BLOCKED) :
    runPreHooks (standardPreHooks env) (mkToolContext "select_active_intent" params ws sid) w
      = .ok ⟨"select_active_intent", params, ws, some intentId, none, none,
             some (buildIntentContextXml intent), none⟩
    ∧ dispatchWithHooks (standardPreHooks env) postHooks
        "select_active_intent" params ws d sid w
      = (⟨.toolResultC (buildIntentContextXml intent), false, none⟩,
         runPostHooks postHooks
           ⟨"select_active_intent", params, ws, some intentId, none, none,
            some (buildIntentContextXml intent), none⟩ w) := by
  have hpre : runPreHooks (standardPreHooks env)
      (mkToolContext "select_active_intent" params ws sid) w
      = .ok ⟨"select_active_intent", params, ws, some intentId, none, none,
             some (buildIntentContextXml intent), none⟩ := by
    simp [standardPreHooks, runPreHooks, contextInjector, mkToolContext, hlookup,
      jsTruthyStr, hne, hload, hfind, hnc, hnb, intentGatekeeper, scopeEnforcer,
      optimisticLockGuard, SAFE_TOOLS, READ_ONLY_TOOLS, LOCK_WRITE_TOOLS]
  refine ⟨hpre, ?_⟩
  simp only [dispatchWithHooks, hpre, buildIntentContextXml_ne_empty, if_true]

/-- Filesystem for the C3 scenario: only the intent file is present. -/
def handshakeWorld : World :=
  ⟨fun p => if p = "/ws/.orchestration/active_intents.yaml" then .content "Y" else .absent⟩

/-- Witness for C3 at concrete inputs: selecting `INT-001` injects the
intent context document and short-circuits dispatch; the host dispatcher
supplied here would write a sentinel file if it ran, and the final world
shows only the post-hook effects, not the sentinel. -/
theorem C3_handshake_purity_witness :
    dispatchWithHooks (standardPreHooks scenarioEnv) []
      "select_active_intent" [("intent_id", .vstr "INT-001")] "/ws"
      (fun _ _ w => ("ran", w.write "/ws/SENTINEL" "x")) (none) handshakeWorld
      = (⟨.toolResultC (buildIntentContextXml intentApi), false, none⟩, handshakeWorld) :=
  ((C3_handshake_purity scenarioEnv handshakeWorld
    [("intent_id", .vstr "INT-001")] "/ws" none "INT-001" [intentApi] intentApi
    [] (fun _ _ w => ("ran", w.write "/ws/SENTINEL" "x"))
    rfl (by decide) rfl rfl (by decide) (by decide)).2).trans (by rfl)

/-! ## C7 — Fail-safe error containment in the engine -/

/-- C7: a pre-hook that raises converts the chain into a `GENERIC_BLOCK`
naming the hook — the remaining pre-hooks (`B`, universally quantified and
absent from the result) are not invoked and the tool does not run (the
dispatch result does not depend on the dispatcher `d`); a post-hook that
raises is swallowed: every subsequent post-hook still runs on the world it
left behind, and the dispatch result is independent of the post-hook
list. -/
theorem C7_hook_error_containment
    (A B : List (String × PreHook)) (n : String) (t : PreHook)
    (toolName : String) (params : Params) (ws : String) (sid : Option String)
    (postHooks : List (String × PostHook))
    (d : String → Params → World → String × World) (w : World) (ctx' : ToolContext)
    (h1 : runPreHooks A (mkToolContext toolName params ws sid) w = .ok ctx')
    (h2 : t ctx' w = .threw) :
    runPreHooks (A ++ (n, t) :: B) (mkToolContext toolName params ws sid) w
      = .block ⟨hookErrReason n, .GENERIC_BLOCK⟩
    ∧ dispatchWithHooks (A ++ (n, t) :: B) postHooks toolName params ws d sid w
      = (⟨.errorC (hookErrReason n) .GENERIC_BLOCK, true, some (hookErrReason n)⟩, w)
    ∧ (∀ (C D : List (String × PostHook)) (m : String) (u : PostHook)
         (ctx₂ : ToolContext) (w₂ : World),
        runPostHooks (C ++ (m, u) :: D) ctx₂ w₂
          = runPostHooks D ctx₂ (u ctx₂ (runPostHooks C ctx₂ w₂)).fst)
    ∧ (∀ (P Q : List (String × PostHook)) (pre : List (String × PreHook)),
        (dispatchWithHooks pre P toolName params ws d sid w).fst
          = (dispatchWithHooks pre Q toolName params ws d sid w).fst) := by
  have hblock : runPreHooks (A ++ (n, t) :: B) (mkToolContext toolName params ws sid) w
      = .block ⟨hookErrReason n, .GENERIC_BLOCK⟩ := by
    rw [runPreHooks_append, h1]
    simp [runPreHooks, h2]
  refine ⟨hblock, ?_, ?_, ?_⟩
  · simp only [dispatchWithHooks, hblock]
  · intro C D m u ctx₂ w₂
    rw [runPostHooks_append]
    simp [runPostHooks]
  · intro P Q pre
    simp only [dispatchWithHooks]
    cases runPreHooks pre (mkToolContext toolName params ws sid) w with
    | block sig => rfl
    | ok ctx₂ =>
      cases hinj : ctx₂.injectedContext with
      | none => simp [hinj]
      | some xml =>
        by_cases hxml : jsTruthyStr xml = true <;> simp [hinj, hxml]

/-- A throwing pre-hook for the C7 witness. -/
def boomPreHook : PreHook := fun _ _ => .threw

/-- A throwing post-hook that still writes a file before failing. -/
def boomPostHook : PostHook := fun _ w => (w.write "/ws/u.txt" "u", true)

/-- A well-behaved post-hook. -/
def tamePostHook : PostHook := fun _ w => (w.write "/ws/v.txt" "v", false)

/-- Witness for C7 at concrete inputs: a chain whose first pre-hook throws
blocks with `GENERIC_BLOCK` naming it; dispatch returns that block without
invoking the (sentinel-writing) tool; a post chain with a throwing first
hook still runs the second hook on the thrown hook's world; the dispatch
result is the same with and without the throwing post-hook. -/
theorem C7_hook_error_containment_witness :
    runPreHooks ([] ++ ("Boom", boomPreHook) :: [])
        (mkToolContext "write_to_file" [] "/ws" none) trivWorld
      = .block ⟨hookErrReason "Boom", .GENERIC_BLOCK⟩
    ∧ dispatchWithHooks ([] ++ ("Boom", boomPreHook) :: []) []
        "write_to_file" [] "/ws" (fun _ _ w => ("ran", w.write "/ws/S" "x")) none trivWorld
      = (⟨.errorC (hookErrReason "Boom") .GENERIC_BLOCK, true,
          some (hookErrReason "Boom")⟩, trivWorld)
    ∧ runPostHooks ([] ++ ("U", boomPostHook) :: [("V", tamePostHook)])
        (mkToolContext "write_to_file" [] "/ws" none) trivWorld
      = runPostHooks [("V", tamePostHook)] (mkToolContext "write_to_file" [] "/ws" none)
          (boomPostHook (mkToolContext "write_to_file" [] "/ws" none)
            (runPostHooks [] (mkToolContext "write_to_file" [] "/ws" none) trivWorld)).fst
    ∧ (dispatchWithHooks [] [("U", boomPostHook)]
        "write_to_file" [] "/ws" (fun _ _ w => ("ran", w.write "/ws/S" "x")) none trivWorld).fst
      = (dispatchWithHooks [] []
        "write_to_file" [] "/ws" (fun _ _ w => ("ran", w.write "/ws/S" "x")) none trivWorld).fst := by
  have T := C7_hook_error_containment [] [] "Boom" boomPreHook
    "write_to_file" [] "/ws" none [] (fun _ _ w => ("ran", w.write "/ws/S" "x"))
    trivWorld (mkToolContext "write_to_file" [] "/ws" none) rfl rfl
  exact ⟨T.1, T.2.1,
    T.2.2.1 [] [("V", tamePostHook)] "U" boomPostHook
      (mkToolContext "write_to_file" [] "/ws" none) trivWorld,
    T.2.2.2 [("U", boomPostHook)] [] []⟩

/-! ## C4 — Optimistic Lock Guard -/

/-- A string with a non-empty prefix is non-empty. -/
theorem append_ne_empty_left {a : String} (ha : a.length ≠ 0) (b : String) :
    a ++ b ≠ "" := by
  intro h
  have hlen := congrArg String.length h
  rw [String.length_append] at hlen
  have h0 : ("" : String).length = 0 := rfl
  rw [h0] at hlen
  omega

/-- C4 (amended): for every tool in the lock guard's write set — the write
subset minus `delete_file` — on an existing readable target: a `read_hash`
equal to `raw-sha256:` + SHA-256 of the current content passes with the
old-content snapshot attached; any other non-empty string `read_hash` is
blocked `STALE_FILE` with a reason carrying both hashes; an absent or
non-string `read_hash` skips validation and passes with the snapshot. -/
theorem C4_lock_guard (env : Env) (w : World) (ctx : ToolContext)
    (targetPath currentContent : String)
    (htool : LOCK_WRITE_TOOLS.contains ctx.toolName = true)
    (hpath : extractTargetPath ctx = some targetPath)
    (hfile : w.files (resolveTarget ctx.workspacePath targetPath)
      = .content currentContent) :
    (ctx.params.lookup "read_hash"
        = some (.vstr ("raw-sha256:" ++ env.sha256Hex currentContent)) →
      optimisticLockGuard env ctx w = .ok { ctx with oldContent := some currentContent })
    ∧ (∀ readHash : String,
        ctx.params.lookup "read_hash" = some (.vstr readHash) →
        readHash ≠ "" →
        readHash ≠ "raw-sha256:" ++ env.sha256Hex currentContent →
        optimisticLockGuard env ctx w = .block
          ⟨staleFileReason
             (pathRelative ctx.workspacePath (resolveTarget ctx.workspacePath targetPath)
               |> (charReplace · '\\' "/"))
             readHash ("raw-sha256:" ++ env.sha256Hex currentContent),
           .STALE_FILE⟩)
    ∧ (ctx.params.lookup "read_hash" = none →
       optimisticLockGuard env ctx w = .ok { ctx with oldContent := some currentContent })
    ∧ (ctx.params.lookup "read_hash" = some .other →
       optimisticLockGuard env ctx w = .ok { ctx with oldContent := some currentContent }) := by
  have hmem : ctx.toolName ∈ LOCK_WRITE_TOOLS := mem_of_containsStr htool
  refine ⟨fun hlookup => ?_, fun readHash hlookup hne hmismatch => ?_,
    fun hlookup => ?_, fun hlookup => ?_⟩
  · have htruthy : jsTruthyStr ("raw-sha256:" ++ env.sha256Hex currentContent) = true := by
      simp only [jsTruthyStr, decide_eq_true_eq]
      exact append_ne_empty_left (by decide) _
    simp [optimisticLockGuard, hmem, hpath, hfile, hlookup, htruthy]
  · simp [optimisticLockGuard, hmem, hpath, hfile, hlookup, jsTruthyStr, hne, hmismatch]
  · simp [optimisticLockGuard, hmem, hpath, hfile, hlookup]
  · simp [optimisticLockGuard, hmem, hpath, hfile, hlookup]

/-- Filesystem for the lock-guard scenarios: `/ws/a.ts` holds `"old"`. -/
def lockWorld : World :=
  ⟨fun p => if p = "/ws/a.ts" then .content "old" else .absent⟩

/-- Witness for C4 (amended) at concrete inputs: on `/ws/a.ts` with content
`"old"` (oracle hash `raw-sha256:old`), a matching `read_hash` passes with
the snapshot, and the stale `raw-sha256:deadbeef` is blocked `STALE_FILE`. -/
theorem C4_lock_guard_witness :
    optimisticLockGuard trivEnv
      (mkToolContext "write_to_file"
        [("path", .vstr "a.ts"), ("read_hash", .vstr "raw-sha256:old")] "/ws" (some "INT-001"))
      lockWorld
      = .ok { mkToolContext "write_to_file"
          [("path", .vstr "a.ts"), ("read_hash", .vstr "raw-sha256:old")] "/ws" (some "INT-001")
          with oldContent := some "old" }
    ∧ optimisticLockGuard trivEnv
      (mkToolContext "write_to_file"
        [("path", .vstr "a.ts"), ("read_hash", .vstr "raw-sha256:deadbeef")] "/ws" (some "INT-001"))
      lockWorld
      = .block ⟨staleFileReason "a.ts" "raw-sha256:deadbeef" "raw-sha256:old", .STALE_FILE⟩ := by
  constructor
  · exact (C4_lock_guard trivEnv lockWorld
      (mkToolContext "write_to_file"
        [("path", .vstr "a.ts"), ("read_hash", .vstr "raw-sha256:old")] "/ws" (some "INT-001"))
      "a.ts" "old" (by decide) rfl rfl).1 rfl
  · have h := (C4_lock_guard trivEnv lockWorld
      (mkToolContext "write_to_file"
        [("path", .vstr "a.ts"), ("read_hash", .vstr "raw-sha256:deadbeef")] "/ws" (some "INT-001"))
      "a.ts" "old" (by decide) rfl rfl).2.1 "raw-sha256:deadbeef" rfl (by decide) (by decide)
    exact h.trans (by rfl)

/-- Counterexample to C4 as stated: `delete_file` belongs to the spec's
write subset (it is destructive and traced), yet the Optimistic Lock Guard
does not guard it — a `delete_file` call on an existing readable file with
a mismatching non-empty `read_hash` passes through unchanged instead of
being blocked `STALE_FILE`. -/
theorem C4_counterexample :
    DESTRUCTIVE_TOOLS.contains "delete_file" = true
    ∧ TRACED_TOOLS.contains "delete_file" = true
    ∧ ("raw-sha256:deadbeef" : String) ≠ "raw-sha256:" ++ trivEnv.sha256Hex "old"
    ∧ optimisticLockGuard trivEnv
        (mkToolContext "delete_file"
          [("path", .vstr "a.ts"), ("read_hash", .vstr "raw-sha256:deadbeef")]
          "/ws" (some "INT-001"))
        lockWorld
      = .ok (mkToolContext "delete_file"
          [("path", .vstr "a.ts"), ("read_hash", .vstr "raw-sha256:deadbeef")]
          "/ws" (some "INT-001")) :=
  ⟨by decide, by decide, by decide, by rfl⟩

/-! ## C10 — Empty-string `read_hash` is treated as absent -/

/-- C10: on a write-subset tool call against an existing readable file, an
empty-string `read_hash` performs no staleness comparison and passes with
the snapshot attached, even though `""` differs from the file's current raw
fingerprint. -/
theorem C10_empty_read_hash (env : Env) (w : World) (ctx : ToolContext)
    (targetPath currentContent : String)
    (htool : LOCK_WRITE_TOOLS.contains ctx.toolName = true)
    (hpath : extractTargetPath ctx = some targetPath)
    (hfile : w.files (resolveTarget ctx.workspacePath targetPath)
      = .content currentContent)
    (hlookup : ctx.params.lookup "read_hash" = some (.vstr "")) :
    optimisticLockGuard env ctx w = .ok { ctx with oldContent := some currentContent }
    ∧ ("" : String) ≠ "raw-sha256:" ++ env.sha256Hex currentContent := by
  refine ⟨?_, fun h => append_ne_empty_left (a := "raw-sha256:") (by decide) _ h.symm⟩
  have hmem : ctx.toolName ∈ LOCK_WRITE_TOOLS := mem_of_containsStr htool
  simp [optimisticLockGuard, hmem, hpath, hfile, hlookup, jsTruthyStr]

/-- Witness for C10 at concrete inputs: an empty `read_hash` on `/ws/a.ts`
passes with the snapshot attached. -/
theorem C10_empty_read_hash_witness :
    optimisticLockGuard trivEnv
      (mkToolContext "write_to_file"
        [("path", .vstr "a.ts"), ("read_hash", .vstr "")] "/ws" (some "INT-001"))
      lockWorld
      = .ok { mkToolContext "write_to_file"
          [("path", .vstr "a.ts"), ("read_hash", .vstr "")] "/ws" (some "INT-001")
          with oldContent := some "old" }
    ∧ ("" : String) ≠ "raw-sha256:" ++ trivEnv.sha256Hex "old" :=
  C10_empty_read_hash trivEnv lockWorld _ "a.ts" "old" (by decide) rfl rfl rfl

/-! ## C8 — Structural hasher dispatch -/

/-- C8: for a file path whose extension case-folds into the supported set,
the hasher attempts an AST parse; on success it returns a hash prefixed
`ast-sha256:` with method `ast` and `node_count` equal to the number of
fingerprint nodes; on parser unavailability or failure, and for every other
extension, it returns the SHA-256 of the raw content prefixed `raw-sha256:`
with method `raw` and `node_count` 0. -/
theorem C8_hasher_dispatch (env : Env) (content filePath : String) :
    (∀ prog : Program,
      TS_EXTENSIONS.contains (strToLower (extname filePath)) = true →
      env.parse content (jsxFlag filePath) = some prog →
      hashCodeBlock env content filePath
        = ⟨"ast-sha256:" ++
            env.sha256Hex (serializeFingerprints (extractFingerprints prog.body)),
           .ast, (extractFingerprints prog.body).length⟩)
    ∧ (TS_EXTENSIONS.contains (strToLower (extname filePath)) = true →
       env.parse content (jsxFlag filePath) = none →
       hashCodeBlock env content filePath
         = ⟨"raw-sha256:" ++ env.sha256Hex content, .raw, 0⟩)
    ∧ (TS_EXTENSIONS.contains (strToLower (extname filePath)) = false →
       hashCodeBlock env content filePath
         = ⟨"raw-sha256:" ++ env.sha256Hex content, .raw, 0⟩) := by
  refine ⟨fun prog hext hparse => ?_, fun hext hparse => ?_, fun hext => ?_⟩
  · simp [hashCodeBlock, mem_of_containsStr hext, hparse, hashAstOf, hashRaw]
  · simp [hashCodeBlock, mem_of_containsStr hext, hparse, hashRaw]
  · simp [hashCodeBlock, not_mem_of_containsStr_false hext, hashRaw]

/-- A one-function program for the hasher witness. -/
def hashProg : Program := ⟨[TopNode.decl (.funcDecl (some "f") 1 ["ReturnStatement"])]⟩

/-- Parser oracle for the hasher witness: only the content `"P"` parses. -/
def hashEnv : Env :=
  { trivEnv with parse := fun s _ => if s = "P" then some hashProg else none }

/-- Witness for C8 at concrete inputs: a parseable `.ts` file hashes by
AST with one fingerprint node; an unparseable `.ts` file and a `.md` file
fall back to the raw hash. -/
theorem C8_hasher_dispatch_witness :
    hashCodeBlock hashEnv "P" "src/a.ts"
      = ⟨"ast-sha256:" ++
          hashEnv.sha256Hex (serializeFingerprints (extractFingerprints hashProg.body)),
         .ast, 1⟩
    ∧ hashCodeBlock hashEnv "Q" "src/a.TS"
      = ⟨"raw-sha256:" ++ hashEnv.sha256Hex "Q", .raw, 0⟩
    ∧ hashCodeBlock hashEnv "P" "README.md"
      = ⟨"raw-sha256:" ++ hashEnv.sha256Hex "P", .raw, 0⟩ :=
  ⟨((C8_hasher_dispatch hashEnv "P" "src/a.ts").1 hashProg rfl rfl).trans (by rfl),
   (C8_hasher_dispatch hashEnv "Q" "src/a.TS").2.1 rfl rfl,
   (C8_hasher_dispatch hashEnv "P" "README.md").2.2 rfl⟩

/-! ## C9 — Round-trip of a status update -/

/-- Finding by id after the in-place update yields the updated intent. -/
theorem find_updateFirstIntent (intents : List ActiveIntent) (intentId : String)
    (s : IntentStatus) (now : String) (intent : ActiveIntent)
    (h : intents.find? (fun i => i.id = intentId) = some intent) :
    (updateFirstIntent intents intentId s now).find? (fun i => i.id = intentId)
      = some { intent with status := s, updated_at := now } := by
  induction intents with
  | nil => simp [List.find?] at h
  | cons hd tl ih =>
    by_cases hid : hd.id = intentId
    · have hhd : hd = intent := by simpa [List.find?, hid] using h
      subst hhd
      simp [updateFirstIntent, List.find?, hid]
    · have h' : tl.find? (fun i => i.id = intentId) = some intent := by
        simpa [List.find?, hid] using h
      simpa [updateFirstIntent, List.find?, hid] using ih h'

/-- C9: when the intent file loads to `intents` and an intent with the
given id exists, `updateIntentStatus` rewrites the file (header + dump of
the updated list), and a subsequent `loadIntents`/`findIntent` on the new
world yields that intent with the new status and a refreshed `updated_at`
(assuming the external YAML codec round-trips the dumped document); when no
such intent exists, `updateIntentStatus` fails with the unknown-intent
error (raised before any write, so the file is not rewritten). -/
theorem C9_status_roundtrip (env : Env) (w : World) (ws intentId : String)
    (s : IntentStatus) (intents : List ActiveIntent)
    (hload : loadIntentsE env w ws = .ok intents) :
    (∀ intent, intents.find? (fun i => i.id = intentId) = some intent →
      env.yamlLoad (intentsHeader ++ env.yamlDump (updateFirstIntent intents intentId s env.now))
        = .intents (updateFirstIntent intents intentId s env.now) →
      updateIntentStatus env w ws intentId s
        = .ok (w.write (intentsFilePath ws)
            (intentsHeader ++ env.yamlDump (updateFirstIntent intents intentId s env.now)))
      ∧ findIntentE env
          (w.write (intentsFilePath ws)
            (intentsHeader ++ env.yamlDump (updateFirstIntent intents intentId s env.now)))
          ws intentId
        = .ok (some { intent with status := s, updated_at := env.now }))
    ∧ (intents.find? (fun i => i.id = intentId) = none →
       updateIntentStatus env w ws intentId s
         = .error ("[intentStore] Cannot update status: intent \"" ++ intentId ++ "\" not found")) := by
  refine ⟨fun intent hfind hcodec => ⟨?_, ?_⟩, fun hnone => ?_⟩
  · simp [updateIntentStatus, hload, hfind]
  · have hfiles : (w.write (intentsFilePath ws)
        (intentsHeader ++ env.yamlDump (updateFirstIntent intents intentId s env.now))).files
          (intentsFilePath ws)
        = .content (intentsHeader ++ env.yamlDump (updateFirstIntent intents intentId s env.now)) := by
      simp [World.write]
    simp [findIntentE, loadIntentsE, hfiles, hcodec, Except.map,
      find_updateFirstIntent intents intentId s env.now intent hfind]
  · simp [updateIntentStatus, hload, hnone]

/-- Oracle environment for the C9 witness: the document `"Y"` loads to
`[intentApi]`, dumping produces `"D"`, and the rewritten file
(header + `"D"`) loads back to the updated list — a concrete instance of
the YAML codec round-trip. -/
def c9Env : Env :=
  { trivEnv with
    yamlDump := fun _ => "D"
    yamlLoad := fun doc =>
      if doc = "Y" then .intents [intentApi]
      else if doc = intentsHeader ++ "D" then
        .intents (updateFirstIntent [intentApi] "INT-001" .COMPLETE trivEnv.now)
      else .parseError }

set_option maxRecDepth 8000 in
/-- Witness for C9 at concrete inputs: updating `INT-001` to COMPLETE
rewrites the file and a reload finds the updated record; updating a missing
id fails with the unknown-intent error. -/
theorem C9_status_roundtrip_witness :
    updateIntentStatus c9Env handshakeWorld "/ws" "INT-001" .COMPLETE
      = .ok (handshakeWorld.write (intentsFilePath "/ws")
          (intentsHeader ++ c9Env.yamlDump (updateFirstIntent [intentApi] "INT-001" .COMPLETE c9Env.now)))
    ∧ findIntentE c9Env
        (handshakeWorld.write (intentsFilePath "/ws")
          (intentsHeader ++ c9Env.yamlDump (updateFirstIntent [intentApi] "INT-001" .COMPLETE c9Env.now)))
        "/ws" "INT-001"
      = .ok (some { intentApi with status := .COMPLETE, updated_at := c9Env.now })
    ∧ updateIntentStatus c9Env handshakeWorld "/ws" "NO-SUCH" .COMPLETE
      = .error "[intentStore] Cannot update status: intent \"NO-SUCH\" not found" := by
  have T := C9_status_roundtrip c9Env handshakeWorld "/ws" "INT-001" .COMPLETE [intentApi] rfl
  have U := (T.1 intentApi rfl (by rfl))
  refine ⟨U.1, U.2, ?_⟩
  have V := C9_status_roundtrip c9Env handshakeWorld "/ws" "NO-SUCH" .COMPLETE [intentApi] rfl
  exact (V.2 rfl).trans (by rfl)

/-! ## C5 — Mutation classifier: map lemmas -/

/-- An entry of a map has its own key. -/
theorem mapHas_of_mem {m : List (String × ExportSignature)}
    {kv : String × ExportSignature} (h : kv ∈ m) : mapHas m kv.fst = true := by
  simp only [mapHas, List.any_eq_true]
  exact ⟨kv, h, by simp⟩

/-- Replacing an existing key's value leaves the key list unchanged. -/
theorem map_fst_replace (m : List (String × ExportSignature)) (k : String)
    (v : ExportSignature) :
    ((m.map (fun kv => if kv.fst = k then (k, v) else kv)).map Prod.fst)
      = m.map Prod.fst := by
  induction m with
  | nil => rfl
  | cons hd tl ih =>
    by_cases h : hd.fst = k
    · simp [h, ih]
    · simp [h, ih]

/-- `mapInsert` preserves distinctness of keys. -/
theorem mapInsert_keys_nodup {m : List (String × ExportSignature)}
    (h : (m.map Prod.fst).Nodup) (k : String) (v : ExportSignature) :
    ((mapInsert m k v).map Prod.fst).Nodup := by
  unfold mapInsert
  by_cases hany : m.any (fun kv => kv.fst = k) = true
  · simp only [hany, if_true, map_fst_replace]
    exact h
  · simp only [hany, if_false, Bool.false_eq_true, List.map_append, List.map_cons,
      List.map_nil]
    rw [List.nodup_append]
    refine ⟨h, List.nodup_singleton k, ?_⟩
    intro a ha hb
    have ha' : a = k := by simpa using hb
    subst ha'
    obtain ⟨kv, hkv, hfst⟩ := List.mem_map.mp ha
    exact hany (List.any_eq_true.mpr ⟨kv, hkv, by simp [hfst]⟩)

/-- The key list of an export map is duplicate-free. -/
theorem exportMap_keys_nodup (l : List ExportSignature) :
    ((exportMap l).map Prod.fst).Nodup := by
  have hgen : ∀ (xs : List ExportSignature) (m : List (String × ExportSignature)),
      (m.map Prod.fst).Nodup →
      (((xs.foldl (fun m sig => mapInsert m (exportKey sig) sig) m)).map Prod.fst).Nodup := by
    intro xs
    induction xs with
    | nil => exact fun m h => h
    | cons hd tl ih =>
      intro m h
      exact ih _ (mapInsert_keys_nodup h (exportKey hd) hd)
  exact hgen l [] (by simp)

/-- Looking up the key of an entry of a duplicate-free map returns that
entry's value. -/
theorem mapGet_of_mem {m : List (String × ExportSignature)}
    (hnd : (m.map Prod.fst).Nodup) {kv : String × ExportSignature} (h : kv ∈ m) :
    mapGet m kv.fst = some kv.snd := by
  induction m with
  | nil => cases h
  | cons hd tl ih =>
    rcases List.mem_cons.mp h with heq | htl
    · subst heq
      simp [mapGet, List.find?]
    · have hnd' : (tl.map Prod.fst).Nodup := (List.nodup_cons.mp hnd).2
      have hne : hd.fst ≠ kv.fst := by
        intro he
        exact (List.nodup_cons.mp hnd).1 (he ▸ List.mem_map.mpr ⟨kv, htl, rfl⟩)
      have := ih hnd' htl
      simpa [mapGet, List.find?, hne] using this

/-- A member of an export map implies a non-empty export list. -/
theorem exports_ne_nil_of_mem_exportMap {l : List ExportSignature}
    {kv : String × ExportSignature} (h : kv ∈ exportMap l) : l ≠ [] := by
  intro hnil
  subst hnil
  cases h

/-- A signature never counts as changed against itself. -/
theorem sigChanged_self (sig : ExportSignature) : sigChanged sig sig = false := by
  simp [sigChanged]

/-! ## C5 — Mutation classifier theorem -/

/-- C5 (amended): when both export extractions are empty the classifier
returns `UNKNOWN` (even when the structural fingerprints are equal); when
the exported-surface maps keyed by `(kind, name)` are equal and at least
one export exists, it returns `AST_REFACTOR`; and any added, removed, or
kind-or-arity-changed export yields `INTENT_EVOLUTION`.  Equality of the
structural fingerprints alone does not suffice for `AST_REFACTOR` (see
the counterexample). -/
theorem C5_classifier (env : Env) (oldContent newContent filePath : String) :
    (extractExports env oldContent filePath = [] →
     extractExports env newContent filePath = [] →
     classifyMutation env oldContent newContent filePath
       = ⟨.UNKNOWN, "Could not parse exports — non-TypeScript file or parse error",
          [], [], []⟩)
    ∧ (exportMap (extractExports env oldContent filePath)
         = exportMap (extractExports env newContent filePath) →
       extractExports env oldContent filePath ≠ [] →
       classifyMutation env oldContent newContent filePath
         = ⟨.AST_REFACTOR, "Exported API surface unchanged — internal refactor only",
            [], [], []⟩)
    ∧ (((∃ kv ∈ exportMap (extractExports env newContent filePath),
           mapHas (exportMap (extractExports env oldContent filePath)) kv.fst = false) ∨
        (∃ kv ∈ exportMap (extractExports env oldContent filePath),
           mapHas (exportMap (extractExports env newContent filePath)) kv.fst = false) ∨
        (∃ kv ∈ exportMap (extractExports env newContent filePath), ∃ ov,
           mapGet (exportMap (extractExports env oldContent filePath)) kv.fst = some ov ∧
           sigChanged ov kv.snd = true)) →
       (classifyMutation env oldContent newContent filePath).mutationClass
         = .INTENT_EVOLUTION) := by
  refine ⟨fun hold hnew => ?_, fun hmap hne => ?_, fun hdiff => ?_⟩
  · simp [classifyMutation, hold, hnew]
  · have h0 : ¬((extractExports env oldContent filePath).length = 0 ∧
        (extractExports env newContent filePath).length = 0) := by
      intro hc
      exact hne (List.length_eq_zero.mp hc.1)
    have hadded : (exportMap (extractExports env newContent filePath)).filter
        (fun kv => ! mapHas (exportMap (extractExports env oldContent filePath)) kv.fst)
        = [] := by
      rw [hmap]
      rw [List.filter_eq_nil_iff]
      intro kv hkv
      simp [mapHas_of_mem hkv]
    have hremoved : (exportMap (extractExports env oldContent filePath)).filter
        (fun kv => ! mapHas (exportMap (extractExports env newContent filePath)) kv.fst)
        = [] := by
      rw [← hmap]
      rw [List.filter_eq_nil_iff]
      intro kv hkv
      simp [mapHas_of_mem hkv]
    have hchanged : (exportMap (extractExports env newContent filePath)).filterMap
        (fun kv =>
          match mapGet (exportMap (extractExports env oldContent filePath)) kv.fst with
          | some oldSig =>
            if sigChanged oldSig kv.snd then
              some (formatSig oldSig ++ " → " ++ formatSig kv.snd)
            else none
          | none => none) = [] := by
      rw [hmap]
      rw [List.filterMap_eq_nil_iff]
      intro kv hkv
      rw [mapGet_of_mem (exportMap_keys_nodup _) hkv]
      simp [sigChanged_self]
    simp only [classifyMutation, if_neg h0, hadded, hremoved, hchanged,
      List.map_nil]
    simp
  · rcases hdiff with ⟨kv, hkv, hhas⟩ | ⟨kv, hkv, hhas⟩ | ⟨kv, hkv, ov, hget, hsig⟩
    · have hne : extractExports env newContent filePath ≠ [] :=
        exports_ne_nil_of_mem_exportMap hkv
      have h0 : ¬((extractExports env oldContent filePath).length = 0 ∧
          (extractExports env newContent filePath).length = 0) := by
        intro hc
        exact hne (List.length_eq_zero.mp hc.2)
      have hamem : formatSig kv.snd ∈
          ((exportMap (extractExports env newContent filePath)).filter
            (fun kv => ! mapHas (exportMap (extractExports env oldContent filePath)) kv.fst)).map
            (fun kv => formatSig kv.snd) :=
        List.mem_map.mpr ⟨kv, List.mem_filter.mpr ⟨hkv, by simp [hhas]⟩, rfl⟩
      have hane : ((exportMap (extractExports env newContent filePath)).filter
            (fun kv => ! mapHas (exportMap (extractExports env oldContent filePath)) kv.fst)).map
            (fun kv => formatSig kv.snd) ≠ [] :=
        List.ne_nil_of_mem hamem
      simp only [classifyMutation, if_neg h0]
      rw [if_neg (by simp [hane])]
    · have hne : extractExports env oldContent filePath ≠ [] :=
        exports_ne_nil_of_mem_exportMap hkv
      have h0 : ¬((extractExports env oldContent filePath).length = 0 ∧
          (extractExports env newContent filePath).length = 0) := by
        intro hc
        exact hne (List.length_eq_zero.mp hc.1)
      have hrmem : formatSig kv.snd ∈
          ((exportMap (extractExports env oldContent filePath)).filter
            (fun kv => ! mapHas (exportMap (extractExports env newContent filePath)) kv.fst)).map
            (fun kv => formatSig kv.snd) :=
        List.mem_map.mpr ⟨kv, List.mem_filter.mpr ⟨hkv, by simp [hhas]⟩, rfl⟩
      have hrne : ((exportMap (extractExports env oldContent filePath)).filter
            (fun kv => ! mapHas (exportMap (extractExports env newContent filePath)) kv.fst)).map
            (fun kv => formatSig kv.snd) ≠ [] :=
        List.ne_nil_of_mem hrmem
      simp only [classifyMutation, if_neg h0]
      rw [if_neg (by simp [hrne])]
    · have hne : extractExports env newContent filePath ≠ [] :=
        exports_ne_nil_of_mem_exportMap hkv
      have h0 : ¬((extractExports env oldContent filePath).length = 0 ∧
          (extractExports env newContent filePath).length = 0) := by
        intro hc
        exact hne (List.length_eq_zero.mp hc.2)
      have hcmem : (formatSig ov ++ " → " ++ formatSig kv.snd) ∈
          (exportMap (extractExports env newContent filePath)).filterMap
            (fun kv =>
              match mapGet (exportMap (extractExports env oldContent filePath)) kv.fst with
              | some oldSig =>
                if sigChanged oldSig kv.snd then
                  some (formatSig oldSig ++ " → " ++ formatSig kv.snd)
                else none
              | none => none) :=
        List.mem_filterMap.mpr ⟨kv, hkv, by rw [hget]; simp [hsig]⟩
      have hcne : (exportMap (extractExports env newContent filePath)).filterMap
            (fun kv =>
              match mapGet (exportMap (extractExports env oldContent filePath)) kv.fst with
              | some oldSig =>
                if sigChanged oldSig kv.snd then
                  some (formatSig oldSig ++ " → " ++ formatSig kv.snd)
                else none
              | none => none) ≠ [] :=
        List.ne_nil_of_mem hcmem
      simp only [classifyMutation, if_neg h0]
      rw [if_neg (by simp [hcne])]

/-- An exported `function f(a)` with one return statement in its body. -/
def progFnBody : Program :=
  ⟨[.exportNamed (some (.funcDecl (some "f") 1 ["ReturnStatement"])) []]⟩

/-- The same exported surface (`fn f/1`) with a different body shape. -/
def progFnEmpty : Program :=
  ⟨[.exportNamed (some (.funcDecl (some "f") 1 [])) []]⟩

/-- The surface after adding a parameter (`fn f/2`). -/
def progFnTwo : Program :=
  ⟨[.exportNamed (some (.funcDecl (some "f") 2 [])) []]⟩

/-- Parser oracle for the classifier witness. -/
def c5Env : Env :=
  { trivEnv with
    parse := fun s _ =>
      if s = "O" then some progFnBody
      else if s = "R" then some progFnEmpty
      else if s = "N" then some progFnTwo
      else none }

/-- Witness for C5 at concrete inputs: a non-source pair classifies
`UNKNOWN`; a body-only change (different fingerprints, identical exported
surface) classifies `AST_REFACTOR`; an arity change classifies
`INTENT_EVOLUTION`. -/
theorem C5_classifier_witness :
    classifyMutation c5Env "X" "X" "a.md"
      = ⟨.UNKNOWN, "Could not parse exports — non-TypeScript file or parse error",
         [], [], []⟩
    ∧ extractFingerprints progFnBody.body ≠ extractFingerprints progFnEmpty.body
    ∧ classifyMutation c5Env "O" "R" "a.ts"
      = ⟨.AST_REFACTOR, "Exported API surface unchanged — internal refactor only",
         [], [], []⟩
    ∧ (classifyMutation c5Env "O" "N" "a.ts").mutationClass = .INTENT_EVOLUTION :=
  ⟨(C5_classifier c5Env "X" "X" "a.md").1 rfl rfl,
   by decide,
   (C5_classifier c5Env "O" "R" "a.ts").2.1 rfl (by decide),
   (C5_classifier c5Env "O" "N" "a.ts").2.2
     (Or.inr (Or.inr ⟨("fn:f", ⟨.fn, "f", some 2⟩), by decide,
       ⟨.fn, "f", some 1⟩, rfl, rfl⟩))⟩

/-- `export default function FunctionDeclaration(){}` — a named default
export whose name collides with the node type tag. -/
def progDefaultNamed : Program :=
  ⟨[.exportDefault (some (.funcDecl (some "FunctionDeclaration") 0 []))]⟩

/-- `export default function(){}` — an anonymous default export. -/
def progDefaultAnon : Program :=
  ⟨[.exportDefault (some (.funcDecl none 0 []))]⟩

/-- Parser oracle for the default-export collision. -/
def c5CounterEnv : Env :=
  { trivEnv with
    parse := fun s _ =>
      if s = "export default function FunctionDeclaration()\x7b\x7d" then some progDefaultNamed
      else if s = "export default function()\x7b\x7d" then some progDefaultAnon
      else none }

/-- Counterexample to C5 as stated: the fingerprint of a default export is
`id?.name ?? declaration.type`, while its export-surface name is
`id?.name ?? "__default__"`, so `export default function FunctionDeclaration(){}`
and `export default function(){}` have identical structural fingerprints
(and identical `ast-sha256` hashes) yet different exported surfaces: the
classifier returns `INTENT_EVOLUTION`, not `AST_REFACTOR`, on a
fingerprint-equal pair. -/
theorem C5_counterexample :
    extractFingerprints progDefaultNamed.body = extractFingerprints progDefaultAnon.body
    ∧ hashCodeBlock c5CounterEnv "export default function FunctionDeclaration()\x7b\x7d" "d.ts"
      = hashCodeBlock c5CounterEnv "export default function()\x7b\x7d" "d.ts"
    ∧ (hashCodeBlock c5CounterEnv "export default function FunctionDeclaration()\x7b\x7d" "d.ts").method
      = .ast
    ∧ (classifyMutation c5CounterEnv
        "export default function FunctionDeclaration()\x7b\x7d"
        "export default function()\x7b\x7d" "d.ts").mutationClass
      = .INTENT_EVOLUTION :=
  ⟨by decide, by rfl, by rfl, by rfl⟩

/-! ## C6 — Lesson Recorder never fires in the pipeline -/

/-- The Context Injector never sets `mutationClass`. -/
theorem contextInjector_mutationClass (env : Env) (ctx : ToolContext) (w : World)
    (ctx' : ToolContext) (h : contextInjector env ctx w = .ok ctx') :
    ctx'.mutationClass = ctx.mutationClass := by
  simp only [contextInjector] at h
  repeat' split at h
  all_goals cases h <;> rfl

/-- The Intent Gatekeeper never sets `mutationClass`. -/
theorem intentGatekeeper_mutationClass (ctx : ToolContext) (ctx' : ToolContext)
    (h : intentGatekeeper ctx = .ok ctx') :
    ctx'.mutationClass = ctx.mutationClass := by
  simp only [intentGatekeeper] at h
  repeat' split at h
  all_goals cases h <;> rfl

/-- The Scope Enforcer never sets `mutationClass`. -/
theorem scopeEnforcer_mutationClass (env : Env) (ctx : ToolContext) (w : World)
    (ctx' : ToolContext) (h : scopeEnforcer env ctx w = .ok ctx') :
    ctx'.mutationClass = ctx.mutationClass := by
  simp only [scopeEnforcer] at h
  repeat' split at h
  all_goals cases h <;> rfl

/-- The Optimistic Lock Guard never sets `mutationClass`. -/
theorem optimisticLockGuard_mutationClass (env : Env) (ctx : ToolContext) (w : World)
    (ctx' : ToolContext) (h : optimisticLockGuard env ctx w = .ok ctx') :
    ctx'.mutationClass = ctx.mutationClass := by
  simp only [optimisticLockGuard] at h
  repeat' split at h
  all_goals cases h <;> rfl

/-- No pre-hook ever sets `mutationClass`, and the engine discards post-hook
return values, so in every dispatch run the Lesson Recorder sees
`mutationClass = none` and leaves the world untouched: it can never append
to CLAUDE.md through the pipeline. -/
theorem runPreHooks_ok_mutationClass :
    ∀ (hooks : List (String × PreHook)) (ctx : ToolContext) (w : World)
      (ctx' : ToolContext),
      (∀ p ∈ hooks, ∀ (c : ToolContext) (cw : World) (c' : ToolContext),
        p.snd c cw = .ok c' → c'.mutationClass = c.mutationClass) →
      runPreHooks hooks ctx w = .ok ctx' →
      ctx'.mutationClass = ctx.mutationClass := by
  intro hooks
  induction hooks with
  | nil =>
    intro ctx w ctx' _ h
    cases h
    rfl
  | cons hd tl ih =>
    intro ctx w ctx' hpres h
    obtain ⟨name, fn⟩ := hd
    simp only [runPreHooks] at h
    split at h
    · rename_i c1 heq
      exact (ih c1 w ctx' (fun p hp => hpres p (List.mem_cons_of_mem _ hp)) h).trans
        (hpres (name, fn) (List.mem_cons_self _ _) ctx w c1 heq)
    · cases h
    · cases h

/-- No pre-hook ever sets `mutationClass`, and the engine discards post-hook
return values, so in every dispatch run the Lesson Recorder sees
`mutationClass = none` and leaves the world untouched: it can never append
to CLAUDE.md through the pipeline. -/
theorem lessonRecorder_never_fires (env : Env) (toolName : String) (params : Params)
    (ws : String) (sid : Option String) (w : World) (ctx' : ToolContext)
    (h : runPreHooks (standardPreHooks env) (mkToolContext toolName params ws sid) w
      = .ok ctx') :
    ctx'.mutationClass = none ∧ ∀ w₂ : World, lessonRecorder env ctx' w₂ = (w₂, false) := by
  have hmc : ctx'.mutationClass = none := by
    refine runPreHooks_ok_mutationClass _ _ _ _ ?_ h
    intro p hp c cw c' hok
    simp only [standardPreHooks, List.mem_cons, List.not_mem_nil, or_false] at hp
    rcases hp with rfl | rfl | rfl | rfl
    · exact contextInjector_mutationClass env c cw c' hok
    · exact intentGatekeeper_mutationClass c c' hok
    · exact scopeEnforcer_mutationClass env c cw c' hok
    · exact optimisticLockGuard_mutationClass env c cw c' hok
  refine ⟨hmc, fun w₂ => ?_⟩
  simp [lessonRecorder, hmc]

/-- The S6 scenario: old and new content of `src/api/routes.ts`. -/
def s6Old : String := "export function f(a)\x7b\x7d"

/-- The new content adds a parameter to the exported function. -/
def s6New : String := "export function f(a,b)\x7b\x7d"

/-- Oracle environment for the S6 scenario. -/
def s6Env : Env :=
  { scenarioEnv with
    parse := fun s _ =>
      if s = s6Old then some progFnEmpty
      else if s = s6New then some progFnTwo
      else none }

/-- Filesystem for the S6 scenario: the intent file and the target file;
no CLAUDE.md. -/
def s6World : World :=
  ⟨fun p =>
    if p = "/ws/.orchestration/active_intents.yaml" then .content "Y"
    else if p = "/ws/src/api/routes.ts" then .content s6Old
    else .absent⟩

/-- The full S6 pipeline run. -/
def s6Run : DispatchResult × World :=
  dispatchWithHooks (standardPreHooks s6Env) (standardPostHooks s6Env)
    "write_to_file"
    [("path", .vstr "src/api/routes.ts"), ("content", .vstr s6New)]
    "/ws" (fun _ _ w => ("ok", w.write "/ws/src/api/routes.ts" s6New))
    (some "INT-001") s6World

/-- C6 fails on the code: in the S6 run — a write-set tool under an active
intent whose change is classified `INTENT_EVOLUTION` with
`changed = ["fn:f:1 → fn:f:2"]` — the call is allowed, the trace ledger is
written, but CLAUDE.md is never created or appended to: `ctx.mutationClass`
is never assigned by any hook (the engine discards post-hook return values
and the Trace Logger keeps its classification local), so the Lesson
Recorder's trigger condition is unsatisfiable in a pipeline run. -/
theorem C6_lesson_recorder_bug :
    (classifyMutation s6Env s6Old s6New "/ws/src/api/routes.ts").mutationClass
      = .INTENT_EVOLUTION
    ∧ (classifyMutation s6Env s6Old s6New "/ws/src/api/routes.ts").changed
      = ["fn:f:1 → fn:f:2"]
    ∧ s6Run.fst.blocked = false
    ∧ s6Run.snd.files "/ws/.orchestration/agent_trace.jsonl" ≠ .absent
    ∧ s6Run.snd.files "/ws/CLAUDE.md" = .absent :=
  ⟨by rfl, by rfl, by rfl, by decide, by rfl⟩

end Roo
